import Mathlib

/-!
Verification of the room/session state machine of the Jonas-Review-Guesser
WebSocket server (`server/server.js`).

The server keeps, per room, a `GameState` record: a map of persistent
`userId -> User`, a routing table `connectionId -> userId`, a leaderboard,
the current round (game id, per-user answers, correct answer, status) and a
two-option next-game vote.  We embed that state shallowly:

* JS objects keyed by strings become association lists (insertion order
  preserved, matching `Object.values` iteration order);
* the `nextGameVotes` record values are modelled by `Tally`: a key can be
  `absent` (after `delete`), hold a number, or hold `NaN` (which arises from
  `undefined - 1` in `handleNextGameVote` when the user's previous option was
  deleted from the record); `x || 0` reads of such a value are `readOr0`;
* the two `setTimeout` callbacks (room deletion, deferred vote activation)
  become explicit timer-fire events;
* `randomUUID` freshness of connection ids becomes a validity condition on
  connect events;
* `assignUserColor` draws from a palette with a `Math.random` fallback; the
  chosen color is taken as an input of the connect event (no claim observes
  colors, and the color affects nothing else);
* outbound traffic is abstracted to `Effect` values (who a message goes to),
  matching the broadcast-gateway boundary.
-/

namespace JonasReviewGuesser

/-- The two next-game vote options (`'raw'` and `'smart'`). -/
inductive VoteOption
  | raw
  | smart
deriving DecidableEq, Repr

/-- Room status: `'in_progress'` or `'completed'`. -/
inductive RoomStatus
  | in_progress
  | completed
deriving DecidableEq, Repr

/-- Value of one key of the JS record `state.nextGameVotes`.  `absent` means
the key was deleted (reads as `undefined`), `nan` is the JS `NaN` produced by
`undefined - 1`, and `num n` is an ordinary non-negative count. -/
inductive Tally
  | absent
  | nan
  | num (n : Nat)
deriving DecidableEq, Repr

/-- `state.nextGameVotes[o] || 0`: `undefined` and `NaN` are falsy. -/
def Tally.readOr0 : Tally → Nat
  | .absent => 0
  | .nan => 0
  | .num n => n

/-- The retraction used on disconnect and on duplicate-connection eviction:
`state.nextGameVotes[o] = Math.max(0, (state.nextGameVotes[o] || 1) - 1)`
followed by `if (state.nextGameVotes[o] <= 0) delete state.nextGameVotes[o]`.
Note `NaN <= 0` is false in JS, but `(NaN || 1) - 1 = 0`, so every small value
ends up deleted. -/
def Tally.retract : Tally → Tally
  | .absent => .absent
  | .nan => .absent
  | .num n => if n - 1 = 0 then .absent else .num (n - 1)

/-- The re-vote decrement in `handleNextGameVote`:
`state.nextGameVotes[old] = Math.max(0, state.nextGameVotes[old] - 1)`
with no `delete`.  `undefined - 1` and `NaN - 1` are `NaN`, and
`Math.max(0, NaN)` is `NaN`. -/
def Tally.decVote : Tally → Tally
  | .absent => .nan
  | .nan => .nan
  | .num n => .num (n - 1)

/-- The vote increment: `(state.nextGameVotes[o] || 0) + 1`. -/
def Tally.incVote : Tally → Tally
  | .absent => .num 1
  | .nan => .num 1
  | .num n => .num (n + 1)

/-- `User` record (`server.js` lines 6-19, created at lines 268-280). -/
structure User where
  id : Option String
  userId : String
  name : String
  score : Nat
  failedGuesses : Nat
  totalGuesses : Nat
  color : String
  isOnline : Bool
  hasReplied : Bool
  replyOption : Option Int
  nextGameVote : Option VoteOption
deriving DecidableEq, Repr

/-- `CurrentGameStat`: one recorded answer for the current round. -/
structure Stat where
  userId : String
  answerValue : Int
deriving DecidableEq, Repr

/-- `LeaderboardEntry`. -/
structure LBEntry where
  userId : String
  correctAnswers : Nat
  failedAnswers : Nat
deriving DecidableEq, Repr

/-- A live WebSocket connection as the room sees it: `ws.connectionId` and
the (normalized) `ws.userId` taken from the URL query. -/
structure Conn where
  connectionId : String
  userId : Option String
deriving DecidableEq, Repr

/-- Per-room `GameState` (`server.js` lines 34-46 and 83-94), together with
the room's client set and a flag recording whether a deferred next-game
activation `setTimeout` is outstanding. -/
structure RoomState where
  currentGameId : String
  users : List User
  connectionToUserId : List (String × String)
  leaderboard : List LBEntry
  roomStatus : RoomStatus
  currentGameStats : List Stat
  correctAnswer : Option Int
  votesRaw : Tally
  votesSmart : Tally
  nextGameIdRaw : Option String
  nextGameIdSmart : Option String
  selectedNextGame : Option VoteOption
  clients : List Conn
  pendingVoteTimer : Bool
deriving DecidableEq, Repr

/-- Association-list lookup (JS object property read, `undefined` = `none`). -/
def listLookup (l : List (String × String)) (k : String) : Option String :=
  (l.find? (fun p => decide (p.1 = k))).map (fun p => p.2)

/-- JS object property write: overwrite in place if the key exists, append
otherwise (insertion order preserved). -/
def listUpsert (l : List (String × String)) (k v : String) : List (String × String) :=
  if l.any (fun p => decide (p.1 = k)) then
    l.map (fun p => if p.1 = k then (k, v) else p)
  else
    l ++ [(k, v)]

/-- `delete obj[k]`. -/
def listRemove (l : List (String × String)) (k : String) : List (String × String) :=
  l.filter (fun p => decide (p.1 ≠ k))

/-- `state.users[uid]`. -/
def findUser (s : RoomState) (uid : String) : Option User :=
  s.users.find? (fun u => decide (u.userId = uid))

/-- Mutate the user stored under `uid` (JS mutates the object in place). -/
def updUser (uid : String) (f : User → User) (l : List User) : List User :=
  l.map (fun u => if u.userId = uid then f u else u)

def getVotes (s : RoomState) : VoteOption → Tally
  | .raw => s.votesRaw
  | .smart => s.votesSmart

def setVotes (s : RoomState) : VoteOption → Tally → RoomState
  | .raw, t => { s with votesRaw := t }
  | .smart, t => { s with votesSmart := t }

def getNextGameId (s : RoomState) : VoteOption → Option String
  | .raw => s.nextGameIdRaw
  | .smart => s.nextGameIdSmart

def setNextGameId (s : RoomState) : VoteOption → Option String → RoomState
  | .raw, g => { s with nextGameIdRaw := g }
  | .smart, g => { s with nextGameIdSmart := g }

/-- JS string truthiness on an optional string: `undefined`, `null` and `''`
are falsy. -/
def jsTruthyStr : Option String → Bool
  | none => false
  | some t => t ≠ ""

/-- Fresh room state (`getRoomState`, lines 83-94). -/
def initialRoomState : RoomState where
  currentGameId := ""
  users := []
  connectionToUserId := []
  leaderboard := []
  roomStatus := .in_progress
  currentGameStats := []
  correctAnswer := none
  votesRaw := .num 0
  votesSmart := .num 0
  nextGameIdRaw := none
  nextGameIdSmart := none
  selectedNextGame := none
  clients := []
  pendingVoteTimer := false

/-- `userId` normalization (lines 188-191): empty string becomes `null`. -/
def normalizeUserId : Option String → Option String
  | some "" => none
  | x => x

/-- `persistentUserId` (line 249): the URL `userId`, or `user_<connectionId>`
when none was supplied. -/
def persistentOf (c : Conn) : String :=
  match c.userId with
  | some u => u
  | none => "user_" ++ c.connectionId

/-- `persistentUserId.slice(-6)` used for the default display name. -/
def sliceLast6 (t : String) : String :=
  ⟨t.data.drop (t.data.length - 6)⟩

/-- Mutation applied to the evicted user (lines 227-228): offline, id nulled,
reply state and vote field untouched. -/
def evictedUser (u : User) : User :=
  { u with isOnline := false, id := none }

/-- Mutation applied on `close` (lines 387-394): offline, id nulled, reply
state and vote field cleared. -/
def offlineUser (u : User) : User :=
  { u with isOnline := false, id := none, hasReplied := false,
           replyOption := none, nextGameVote := none }

/-- Eviction of one duplicate connection (lines 222-243): mark its user
offline, drop the user's answer from `currentGameStats` if it had one,
retract the user's vote from the tally if it had one (but leave the user's
`nextGameVote` field set), then remove the routing entry and the client. -/
def evictOne (s : RoomState) (c : Conn) : RoomState :=
  let s1 :=
    match listLookup s.connectionToUserId c.connectionId with
    | some oldUid =>
      if oldUid = "" then s else
      match findUser s oldUid with
      | some u =>
        let sA := { s with users := updUser oldUid evictedUser s.users }
        let sB :=
          if u.replyOption ≠ none then
            { sA with currentGameStats :=
                sA.currentGameStats.filter (fun st => decide (st.userId ≠ oldUid)) }
          else sA
        match u.nextGameVote with
        | some vo => setVotes sB vo ((getVotes sB vo).retract)
        | none => sB
      | none => s
    | none => s
  { s1 with
    connectionToUserId := listRemove s1.connectionToUserId c.connectionId,
    clients := s1.clients.filter (fun c2 => decide (c2.connectionId ≠ c.connectionId)) }

/-- Reattachment of a reconnecting user (lines 254-264): back online under the
new connection id; only the stale reply state is cleared, the vote field and
the score counters are kept. -/
def reattachUser (connId : String) (u : User) : User :=
  { u with id := some connId, isOnline := true, hasReplied := false, replyOption := none }

/-- The fresh `User` object created at lines 268-280. -/
def newUser (connId : String) (pUid : String) (color : String) : User where
  id := some connId
  userId := pUid
  name := "User " ++ sliceLast6 pUid
  score := 0
  failedGuesses := 0
  totalGuesses := 0
  color := color
  isOnline := true
  hasReplied := false
  replyOption := none
  nextGameVote := none

/-- Lines 220-244: disconnect every existing connection claiming the same
(normalized) `userId`. -/
def evictDuplicates (s : RoomState) (userId : Option String) : RoomState :=
  match userId with
  | some uid => (s.clients.filter (fun c => decide (c.userId = some uid))).foldl evictOne s
  | none => s

/-- The `wss.on('connection')` handler (lines 182-320), minus the outbound
messages: normalize the URL `userId`, evict duplicate connections with the
same `userId`, add the new client, then reattach to the existing `User`
(clearing only the stale reply state) or create a fresh one, and record the
routing entry.  `color` is the value `assignUserColor` would return. -/
def handleConnect (s : RoomState) (urlUserId : Option String) (connId : String)
    (color : String) : RoomState :=
  let userId := normalizeUserId urlUserId
  let s1 : RoomState := evictDuplicates s userId
  let s2 : RoomState := { s1 with clients := s1.clients ++ [⟨connId, userId⟩] }
  let pUid := userId.getD ("user_" ++ connId)
  let s3 : RoomState :=
    match findUser s2 pUid with
    | some _ =>
      { s2 with
        users := updUser pUid (reattachUser connId) s2.users,
        currentGameStats := s2.currentGameStats.filter (fun st => decide (st.userId ≠ pUid)) }
    | none =>
      { s2 with users := s2.users ++ [newUser connId pUid color] }
  { s3 with connectionToUserId := listUpsert s3.connectionToUserId connId pUid }

/-- The `ws.on('close')` handler, state part (lines 367-398): if the user is
online, drop its answer and retract its vote; then mark it offline and clear
its reply and vote fields; finally remove the routing entry and the client.
(The room-deletion scheduling of lines 418-468 lives in the registry model.) -/
def handleClose (s : RoomState) (connId : String) : RoomState :=
  let uid? := listLookup s.connectionToUserId connId
  let user? :=
    match uid? with
    | some uid => if uid = "" then none else findUser s uid
    | none => none
  let s1 :=
    match uid?, user? with
    | some uid, some u =>
      if u.isOnline then
        let sA := { s with currentGameStats :=
          s.currentGameStats.filter (fun st => decide (st.userId ≠ uid)) }
        match u.nextGameVote with
        | some vo => setVotes sA vo ((getVotes sA vo).retract)
        | none => sA
      else s
    | _, _ => s
  let s2 : RoomState :=
    match uid?, user? with
    | some uid, some _ => { s1 with users := updUser uid offlineUser s1.users }
    | _, _ => s1
  { s2 with
    connectionToUserId := listRemove s2.connectionToUserId connId,
    clients := s2.clients.filter (fun c => decide (c.connectionId ≠ connId)) }

/-- Outbound traffic produced while handling one inbound message, abstracted
to its addressing: an error unicast back to the sender (`ws.send`), a
`broadcast(clients, msg)` to every open client, or a
`broadcast(clients, msg, ws)` excluding the sender. -/
inductive Effect
  | errorToSender
  | broadcastAll (tag : String)
  | broadcastOthers (tag : String)
deriving DecidableEq, Repr

/-- The connection ids `broadcast` would deliver an effect to. -/
def effectRecipients (s : RoomState) (sender : String) : Effect → List String
  | .errorToSender => [sender]
  | .broadcastAll _ => s.clients.map (fun c => c.connectionId)
  | .broadcastOthers _ =>
      (s.clients.filter (fun c => decide (c.connectionId ≠ sender))).map
        (fun c => c.connectionId)

/-- `updateLeaderboardEntry` (lines 479-490): find the first entry for the
user (pushing a zeroed one if missing) and bump one of its counters. -/
def updateLeaderboardEntry : List LBEntry → String → Bool → List LBEntry
  | [], uid, isCorrect =>
    [{ userId := uid, correctAnswers := if isCorrect then 1 else 0,
       failedAnswers := if isCorrect then 0 else 1 }]
  | e :: rest, uid, isCorrect =>
    if e.userId = uid then
      (if isCorrect then { e with correctAnswers := e.correctAnswers + 1 }
       else { e with failedAnswers := e.failedAnswers + 1 }) :: rest
    else e :: updateLeaderboardEntry rest uid isCorrect

/-- `data.gameId && state.currentGameId !== data.gameId` (line 502). -/
def isNewGameCheck (s : RoomState) (gameId : Option String) : Bool :=
  match gameId with
  | some g => decide (g ≠ "") && decide (s.currentGameId ≠ g)
  | none => false

/-- The quorum test of `handleGuess` (lines 547-567), verbatim: all online
users are in `currentGameStats`, all stats belong to online users, and the
counts match exactly. -/
def allRepliedCheck (s : RoomState) : Bool :=
  let onlineUsers : List User := s.users.filter (fun u => u.isOnline)
  let statsUserIds : List String := s.currentGameStats.map (fun st => st.userId)
  let onlineUserIds : List String := onlineUsers.map (fun u => u.userId)
  let usersWhoActuallyReplied := onlineUsers.filter (fun u => decide (u.userId ∈ statsUserIds))
  let allStatsAreOnline := decide (0 < s.currentGameStats.length) &&
    s.currentGameStats.all (fun st => decide (st.userId ∈ onlineUserIds))
  decide (0 < onlineUsers.length) &&
    decide (onlineUsers.length = s.currentGameStats.length) &&
    decide (usersWhoActuallyReplied.length = onlineUsers.length) &&
    allStatsAreOnline

/-- The new-round reset of `handleGuess` (lines 511-522). -/
def newGameReset (s : RoomState) (gameId : Option String) : RoomState :=
  { s with
    currentGameId := gameId.getD "",
    currentGameStats := [],
    roomStatus := .in_progress,
    correctAnswer := none,
    users := s.users.map (fun u => { u with hasReplied := false, replyOption := none }) }

/-- Lines 524-529: store the correct answer if one was supplied and none is
stored yet (or this submission started a new round). -/
def storeCorrectAnswer (s : RoomState) (isNewGame : Bool) (corr : Option Int) : RoomState :=
  match corr with
  | some c => if s.correctAnswer = none ∨ isNewGame then { s with correctAnswer := some c } else s
  | none => s

/-- Lines 531-544: replace this participant's entry in `currentGameStats`
and mark the user as having replied with this value. -/
def recordGuess (s : RoomState) (uid : String) (gv : Int) : RoomState :=
  let newStats : List Stat :=
    (s.currentGameStats.filter (fun st => decide (st.userId ≠ uid))) ++
      [{ userId := uid, answerValue := gv }]
  let sA : RoomState := { s with currentGameStats := newStats }
  { sA with
    users := updUser uid (fun v => { v with replyOption := some gv, hasReplied := true }) sA.users }

/-- Lines 547-596: if every online user has an answer recorded, the round is
in progress and a correct answer is known, mark the room completed and credit
every recorded answer to the leaderboard. -/
def completeIfAllReplied (s : RoomState) : RoomState :=
  if allRepliedCheck s = true ∧ s.roomStatus = RoomStatus.in_progress ∧ s.correctAnswer ≠ none then
    { s with
      roomStatus := .completed,
      leaderboard := s.currentGameStats.foldl
        (fun lb st => updateLeaderboardEntry lb st.userId (decide (some st.answerValue = s.correctAnswer)))
        s.leaderboard }
  else s

/-- `handleGuess` (lines 495-613).  Early returns leave the state unchanged
and send nothing; a processed guess broadcasts `reply-counts-update` to all
clients. -/
def handleGuess (s : RoomState) (connId : String) (gameId : Option String)
    (guessVal : Int) (corr : Option Int) : RoomState × List Effect :=
  match listLookup s.connectionToUserId connId with
  | none => (s, [])
  | some uid =>
  if uid = "" then (s, []) else
  match findUser s uid with
  | none => (s, [])
  | some u =>
  if u.isOnline = false then (s, []) else
  let isNewGame := isNewGameCheck s gameId
  if s.roomStatus = .completed ∧ isNewGame = false then (s, []) else
  let s1 := if isNewGame then newGameReset s gameId else s
  let s2 := storeCorrectAnswer s1 isNewGame corr
  let s3 := recordGuess s2 uid guessVal
  (completeIfAllReplied s3, [.broadcastAll "reply-counts-update"])

/-- `['raw','smart'].includes(voteOption)` as a parse. -/
def parseVoteOption (o : String) : Option VoteOption :=
  if o = "raw" then some .raw else if o = "smart" then some .smart else none

/-- The vote-recording part of `handleNextGameVote` (lines 651-663): retract
the user's previous vote (no floor delete, so a missing key turns into `NaN`),
record the new vote on the user, bump the chosen tally, and remember the
candidate game id if one was supplied. -/
def voteRecordStep (s : RoomState) (uid : String) (u : User) (vo : VoteOption)
    (gameId : Option String) : RoomState :=
  let s1 :=
    match u.nextGameVote with
    | some old => setVotes s old ((getVotes s old).decVote)
    | none => s
  let s2 := { s1 with users := updUser uid (fun v => { v with nextGameVote := some vo }) s1.users }
  let s3 := setVotes s2 vo ((getVotes s2 vo).incVote)
  if jsTruthyStr gameId then setNextGameId s3 vo gameId else s3

/-- `allVoted` (lines 666-668): at least one online user, and every online
user has a non-null vote. -/
def allVotedCheck (s : RoomState) : Bool :=
  let onlineUsers := s.users.filter (fun u => u.isOnline)
  decide (0 < onlineUsers.length) && onlineUsers.all (fun u => decide (u.nextGameVote ≠ none))

/-- The immediate part of vote resolution (lines 698-718): pick the winner
(`rawVotes >= smartVotes ? 'raw' : 'smart'`), clear the round state and every
user's vote and reply fields, switch to the winning candidate's game id, and
schedule the deferred activation.  The vote tallies themselves are *not*
touched here. -/
def voteResolveStep (s : RoomState) : RoomState :=
  let rawVotes := s.votesRaw.readOr0
  let smartVotes := s.votesSmart.readOr0
  let selectedOption := if smartVotes ≤ rawVotes then VoteOption.raw else VoteOption.smart
  let s1 := { s with selectedNextGame := some selectedOption }
  let selectedGameId :=
    match getNextGameId s1 selectedOption with
    | some g => if g = "" then s1.currentGameId else g
    | none => s1.currentGameId
  { s1 with
    currentGameStats := [],
    roomStatus := .in_progress,
    correctAnswer := none,
    users := s1.users.map (fun v => { v with nextGameVote := none, hasReplied := false, replyOption := none }),
    currentGameId := selectedGameId,
    pendingVoteTimer := true }

/-- `handleNextGameVote` (lines 636-746): guards, an error reply on an
invalid option, vote recording, a `next-game-vote-update` broadcast, and —
if every online user has now voted and no winner is pending — the immediate
resolution step. -/
def handleNextGameVote (s : RoomState) (connId : String) (optionStr : String)
    (gameId : Option String) : RoomState × List Effect :=
  match listLookup s.connectionToUserId connId with
  | none => (s, [])
  | some uid =>
  if uid = "" then (s, []) else
  match findUser s uid with
  | none => (s, [])
  | some u =>
  if u.isOnline = false then (s, []) else
  match parseVoteOption optionStr with
  | none => (s, [.errorToSender])
  | some vo =>
    let s1 := voteRecordStep s uid u vo gameId
    let allVoted := allVotedCheck s1
    let s2 :=
      if allVoted = true ∧ s1.selectedNextGame = none then voteResolveStep s1 else s1
    (s2, [.broadcastAll "next-game-vote-update"])

/-- The deferred activation callback (lines 721-744), state part: reset the
vote tallies, the candidate ids and the selected option for the next cycle. -/
def voteTimerFire (s : RoomState) : RoomState :=
  { s with
    votesRaw := .num 0,
    votesSmart := .num 0,
    nextGameIdRaw := none,
    nextGameIdSmart := none,
    selectedNextGame := none,
    pendingVoteTimer := false }

/-- `handleUserReady` (lines 751-796): an explicit `hasReplied === false`
clears the user's reply state and answer; a non-blank nickname renames. -/
def handleUserReady (s : RoomState) (connId : String) (hasRepliedFlag : Option Bool)
    (nickname : Option String) : RoomState × List Effect :=
  match listLookup s.connectionToUserId connId with
  | none => (s, [])
  | some uid =>
  if uid = "" then (s, []) else
  match findUser s uid with
  | none => (s, [])
  | some u =>
  if u.isOnline = false then (s, []) else
  let s1 :=
    if hasRepliedFlag = some false then
      { s with
        users := updUser uid (fun v => { v with hasReplied := false, replyOption := none }) s.users,
        currentGameStats := s.currentGameStats.filter (fun st => decide (st.userId ≠ uid)) }
    else s
  let s2 :=
    if jsTruthyStr nickname = true ∧ (nickname.getD "").trim ≠ "" then
      { s1 with users := updUser uid (fun v => { v with name := (nickname.getD "").trim }) s1.users }
    else s1
  (s2, [.broadcastAll "reply-status-update"])

/-- `handleResetLeaderboard` (lines 801-828): empty the leaderboard and zero
every user's legacy counters (no per-connection guard in the source). -/
def handleResetLeaderboard (s : RoomState) : RoomState × List Effect :=
  ({ s with
      leaderboard := [],
      users := s.users.map (fun v => { v with score := 0, failedGuesses := 0,
                                              totalGuesses := 0, hasReplied := false }) },
   [.broadcastAll "leaderboard-reset"])

/-- One decoded inbound application message, or a frame the server could not
parse (`malformed`). -/
inductive Inbound
  | malformed
  | guess (gameId : Option String) (guessVal : Int) (correctAnswer : Option Int)
  | correctGuess
  | wrongGuess
  | nextGame
  | userReady (hasRepliedFlag : Option Bool) (nickname : Option String)
  | resetLeaderboard
  | nextGameVote (option : String) (gameId : Option String)
  | other (tag : String)
deriving DecidableEq, Repr

/-- The `ws.on('message')` dispatcher (lines 323-364).  An unparseable frame
is answered with an `Invalid message format` error to the sender only.  A
`next-game` message also ends in that error path: `handleNextGame` is called
at line 339 but never defined in `server.js`, so the call throws a
`ReferenceError` that the surrounding `try`/`catch` turns into the same error
reply before any state is touched.  A message with an unrecognized `type` is
re-broadcast (with `senderId` attached) to every client except the sender. -/
def onMessage (s : RoomState) (connId : String) (m : Inbound) : RoomState × List Effect :=
  match m with
  | .malformed => (s, [.errorToSender])
  | .guess gameId guessVal corr => handleGuess s connId gameId guessVal corr
  | .correctGuess => (s, [])
  | .wrongGuess => (s, [])
  | .nextGame => (s, [.errorToSender])
  | .userReady f nick => handleUserReady s connId f nick
  | .resetLeaderboard => handleResetLeaderboard s
  | .nextGameVote opt gid => handleNextGameVote s connId opt gid
  | .other tag => (s, [.broadcastOthers tag])

/-- One externally triggered transition of a room. -/
inductive Event
  | connect (urlUserId : Option String) (connId : String) (color : String)
  | close (connId : String)
  | message (connId : String) (m : Inbound)
  | voteTimer
deriving DecidableEq, Repr

def step (s : RoomState) : Event → RoomState
  | .connect uid cid color => handleConnect s uid cid color
  | .close cid => handleClose s cid
  | .message cid m => (onMessage s cid m).1
  | .voteTimer => voteTimerFire s

/-- Which events can actually occur on a given state: `randomUUID` makes a
connecting id fresh, and the vote-activation callback only runs once after
having been scheduled. -/
def ValidEvent (s : RoomState) : Event → Prop
  | .connect _ cid _ =>
      listLookup s.connectionToUserId cid = none ∧
      ∀ c ∈ s.clients, c.connectionId ≠ cid
  | .voteTimer => s.pendingVoteTimer = true
  | _ => True

instance (s : RoomState) (e : Event) : Decidable (ValidEvent s e) := by
  cases e <;> simp only [ValidEvent] <;> infer_instance

def ValidTrace : RoomState → List Event → Prop
  | _, [] => True
  | s, e :: r => ValidEvent s e ∧ ValidTrace (step s e) r

instance : ∀ (s : RoomState) (l : List Event), Decidable (ValidTrace s l)
  | _, [] => .isTrue trivial
  | s, e :: r =>
    have : Decidable (ValidTrace (step s e) r) := instDecidableValidTrace (step s e) r
    inferInstanceAs (Decidable (_ ∧ _))

/-- The states of a room that the server can actually reach. -/
inductive Reachable : RoomState → Prop
  | init : Reachable initialRoomState
  | step {s e} : Reachable s → ValidEvent s e → Reachable (JonasReviewGuesser.step s e)

/-- Run a trace of events from the fresh room state. -/
def runEvents (l : List Event) : RoomState :=
  l.foldl step initialRoomState

lemma reachable_foldl {s : RoomState} :
    ∀ (l : List Event), Reachable s → ValidTrace s l → Reachable (l.foldl step s)
  | [], hs, _ => hs
  | e :: r, hs, hv => reachable_foldl r (Reachable.step hs hv.1) hv.2

lemma reachable_runEvents (l : List Event) (h : ValidTrace initialRoomState l) :
    Reachable (runEvents l) :=
  reachable_foldl l Reachable.init h

/-- The server-level room registry: the `rooms` map, the set of room ids with
a color-assignment set (`roomColorAssignments`), and the set of room ids with
a pending 30-second deletion `setTimeout` (`roomDeletionTimeouts`). -/
structure Registry where
  rooms : List (String × RoomState)
  roomColorAssignments : List String
  roomDeletionTimeouts : List String
deriving DecidableEq, Repr

def emptyRegistry : Registry := ⟨[], [], []⟩

def lookupRoom (reg : Registry) (rid : String) : Option RoomState :=
  (reg.rooms.find? (fun p => decide (p.1 = rid))).map (fun p => p.2)

def upsertRoom (rooms : List (String × RoomState)) (rid : String) (st : RoomState) :
    List (String × RoomState) :=
  if rooms.any (fun p => decide (p.1 = rid)) then
    rooms.map (fun p => if p.1 = rid then (rid, st) else p)
  else rooms ++ [(rid, st)]

def removeRoom (rooms : List (String × RoomState)) (rid : String) :
    List (String × RoomState) :=
  rooms.filter (fun p => decide (p.1 ≠ rid))

/-- The fixed deletion grace period (line 454: `30000` ms). -/
def roomDeletionDelayMs : Nat := 30000

/-- `clearTimeout` + `roomDeletionTimeouts.delete(roomId)`. -/
def cancelDeletion (reg : Registry) (rid : String) : Registry :=
  { reg with roomDeletionTimeouts := reg.roomDeletionTimeouts.filter (fun r => decide (r ≠ rid)) }

/-- `getRoomState` (lines 81-99): look the room up, creating a fresh one (and
its color-assignment set) on first use. -/
def getRoomStateReg (reg : Registry) (rid : String) : Registry × RoomState :=
  match lookupRoom reg rid with
  | some st => (reg, st)
  | none =>
    ({ reg with rooms := reg.rooms ++ [(rid, initialRoomState)],
                roomColorAssignments := reg.roomColorAssignments ++ [rid] },
     initialRoomState)

/-- Registry view of a new connection (lines 206-216 and the rest of the
connection handler): get or create the room, cancel any pending deletion
timer for it, and apply the room-level connect. -/
def registryConnect (reg : Registry) (rid : String) (urlUserId : Option String)
    (cid : String) (color : String) : Registry :=
  let pair := getRoomStateReg reg rid
  let reg1 := cancelDeletion pair.1 rid
  let st2 := handleConnect pair.2 urlUserId cid color
  { reg1 with rooms := upsertRoom reg1.rooms rid st2 }

/-- Registry view of a connection close (lines 367-468): apply the room-level
close; if that removed the room's last client, clear any existing deletion
timer and then either schedule deletion after the 30-second grace period
(when the room still has `User` records, even offline ones) or delete the
room immediately (when it has none). -/
def registryClose (reg : Registry) (rid : String) (cid : String) : Registry :=
  match lookupRoom reg rid with
  | none => reg
  | some st =>
    let st2 := handleClose st cid
    let reg1 := { reg with rooms := upsertRoom reg.rooms rid st2 }
    if st2.clients.length = 0 then
      let reg2 := cancelDeletion reg1 rid
      if st2.users.length ≠ 0 then
        { reg2 with roomDeletionTimeouts := reg2.roomDeletionTimeouts ++ [rid] }
      else
        { reg2 with
          rooms := removeRoom reg2.rooms rid,
          roomColorAssignments := reg2.roomColorAssignments.filter (fun r => decide (r ≠ rid)) }
    else reg1

/-- The deletion-timer callback (lines 432-454): delete the room only if it
still has zero live clients and zero online users; in every branch the
pending-timer entry is dropped. -/
def roomDeletionTimerFire (reg : Registry) (rid : String) : Registry :=
  match lookupRoom reg rid with
  | some st =>
    if st.clients.length = 0 then
      if st.users.any (fun u => u.isOnline) then
        cancelDeletion reg rid
      else
        cancelDeletion
          { reg with
            rooms := removeRoom reg.rooms rid,
            roomColorAssignments := reg.roomColorAssignments.filter (fun r => decide (r ≠ rid)) }
          rid
    else cancelDeletion reg rid
  | none => cancelDeletion reg rid

/-! ### Derived observations used by the claims -/

/-- The currently online users. -/
def onlineUsersOf (s : RoomState) : List User := s.users.filter (fun u => u.isOnline)

/-- The number of currently online participants. -/
def onlineCount (s : RoomState) : Nat := (onlineUsersOf s).length

/-- The persistent ids with a recorded answer for the current round. -/
def answeredIds (s : RoomState) : List String :=
  s.currentGameStats.map (fun st => st.userId)

/-- The persistent ids of the online participants. -/
def onlineIds (s : RoomState) : List String :=
  (onlineUsersOf s).map (fun u => u.userId)

/-- The sum of the two vote tallies, as the server reads them (`|| 0`). -/
def tallySum (s : RoomState) : Nat := s.votesRaw.readOr0 + s.votesSmart.readOr0

/-- The spec's round-completion condition: the set of participants with a
recorded answer exactly equals the set of online participants, there is at
least one online participant, and a correct answer is known. -/
def quorumCondition (s : RoomState) : Prop :=
  (answeredIds s).toFinset = (onlineIds s).toFinset ∧
    onlineCount s ≠ 0 ∧ s.correctAnswer ≠ none

instance (s : RoomState) : Decidable (quorumCondition s) := by
  unfold quorumCondition
  infer_instance

/-- No two `User` records share a persistent id (JS stores them in an object
keyed by `userId`). -/
def usersNodup (s : RoomState) : Prop := (s.users.map (fun u => u.userId)).Nodup

/-- No two recorded answers share a persistent id (`handleGuess` filters
before pushing). -/
def statsNodup (s : RoomState) : Prop :=
  (s.currentGameStats.map (fun st => st.userId)).Nodup

instance (s : RoomState) : Decidable (usersNodup s) := by
  unfold usersNodup
  exact List.nodupDecidable _

instance (s : RoomState) : Decidable (statsNodup s) := by
  unfold statsNodup
  exact List.nodupDecidable _

/-! ### Projection lemmas for the small state helpers -/

@[simp] lemma setVotes_users (s : RoomState) (vo : VoteOption) (t : Tally) :
    (setVotes s vo t).users = s.users := by cases vo <;> rfl

@[simp] lemma setVotes_roomStatus (s : RoomState) (vo : VoteOption) (t : Tally) :
    (setVotes s vo t).roomStatus = s.roomStatus := by cases vo <;> rfl

@[simp] lemma setVotes_leaderboard (s : RoomState) (vo : VoteOption) (t : Tally) :
    (setVotes s vo t).leaderboard = s.leaderboard := by cases vo <;> rfl

@[simp] lemma setVotes_currentGameStats (s : RoomState) (vo : VoteOption) (t : Tally) :
    (setVotes s vo t).currentGameStats = s.currentGameStats := by cases vo <;> rfl

@[simp] lemma setVotes_correctAnswer (s : RoomState) (vo : VoteOption) (t : Tally) :
    (setVotes s vo t).correctAnswer = s.correctAnswer := by cases vo <;> rfl

@[simp] lemma setVotes_connectionToUserId (s : RoomState) (vo : VoteOption) (t : Tally) :
    (setVotes s vo t).connectionToUserId = s.connectionToUserId := by cases vo <;> rfl

@[simp] lemma setVotes_clients (s : RoomState) (vo : VoteOption) (t : Tally) :
    (setVotes s vo t).clients = s.clients := by cases vo <;> rfl

@[simp] lemma setVotes_selectedNextGame (s : RoomState) (vo : VoteOption) (t : Tally) :
    (setVotes s vo t).selectedNextGame = s.selectedNextGame := by cases vo <;> rfl

@[simp] lemma setVotes_currentGameId (s : RoomState) (vo : VoteOption) (t : Tally) :
    (setVotes s vo t).currentGameId = s.currentGameId := by cases vo <;> rfl

@[simp] lemma setVotes_pendingVoteTimer (s : RoomState) (vo : VoteOption) (t : Tally) :
    (setVotes s vo t).pendingVoteTimer = s.pendingVoteTimer := by cases vo <;> rfl

@[simp] lemma getVotes_setVotes_same (s : RoomState) (vo : VoteOption) (t : Tally) :
    getVotes (setVotes s vo t) vo = t := by cases vo <;> rfl

lemma getVotes_setVotes_other (s : RoomState) {vo vo' : VoteOption} (t : Tally)
    (h : vo' ≠ vo) : getVotes (setVotes s vo t) vo' = getVotes s vo' := by
  cases vo <;> cases vo' <;> first | rfl | exact absurd rfl h

@[simp] lemma setNextGameId_users (s : RoomState) (vo : VoteOption) (g : Option String) :
    (setNextGameId s vo g).users = s.users := by cases vo <;> rfl

@[simp] lemma setNextGameId_votesRaw (s : RoomState) (vo : VoteOption) (g : Option String) :
    (setNextGameId s vo g).votesRaw = s.votesRaw := by cases vo <;> rfl

@[simp] lemma setNextGameId_votesSmart (s : RoomState) (vo : VoteOption) (g : Option String) :
    (setNextGameId s vo g).votesSmart = s.votesSmart := by cases vo <;> rfl

@[simp] lemma setNextGameId_selectedNextGame (s : RoomState) (vo : VoteOption) (g : Option String) :
    (setNextGameId s vo g).selectedNextGame = s.selectedNextGame := by cases vo <;> rfl

@[simp] lemma setNextGameId_roomStatus (s : RoomState) (vo : VoteOption) (g : Option String) :
    (setNextGameId s vo g).roomStatus = s.roomStatus := by cases vo <;> rfl

@[simp] lemma setNextGameId_leaderboard (s : RoomState) (vo : VoteOption) (g : Option String) :
    (setNextGameId s vo g).leaderboard = s.leaderboard := by cases vo <;> rfl

@[simp] lemma setNextGameId_currentGameStats (s : RoomState) (vo : VoteOption) (g : Option String) :
    (setNextGameId s vo g).currentGameStats = s.currentGameStats := by cases vo <;> rfl

@[simp] lemma setNextGameId_connectionToUserId (s : RoomState) (vo : VoteOption) (g : Option String) :
    (setNextGameId s vo g).connectionToUserId = s.connectionToUserId := by cases vo <;> rfl

@[simp] lemma setNextGameId_clients (s : RoomState) (vo : VoteOption) (g : Option String) :
    (setNextGameId s vo g).clients = s.clients := by cases vo <;> rfl

@[simp] lemma setNextGameId_pendingVoteTimer (s : RoomState) (vo : VoteOption) (g : Option String) :
    (setNextGameId s vo g).pendingVoteTimer = s.pendingVoteTimer := by cases vo <;> rfl

lemma updUser_map_userId (uid : String) (f : User → User)
    (hf : ∀ u, (f u).userId = u.userId) (l : List User) :
    (updUser uid f l).map (fun u => u.userId) = l.map (fun u => u.userId) := by
  induction l with
  | nil => rfl
  | cons a l ih =>
    simp only [updUser, List.map_cons] at *
    by_cases h : a.userId = uid
    · simp [h, hf, ih]
    · simp [h, ih]

lemma map_userId_of_keyPreserving (g : User → User)
    (hg : ∀ u, (g u).userId = u.userId) (l : List User) :
    (l.map g).map (fun u => u.userId) = l.map (fun u => u.userId) := by
  induction l with
  | nil => rfl
  | cons a l ih => simp [hg, ih]

/-! ### The quorum check of `handleGuess` versus the spec condition -/

lemma filter_length_eq_iff {α : Type} (p : α → Bool) (l : List α) :
    (l.filter p).length = l.length ↔ ∀ a ∈ l, p a = true := by
  rw [← List.countP_eq_length_filter]
  exact List.countP_eq_length

/-- The `allReplied` computation of lines 547-567 agrees with the
membership-level set equality once answers and users are keyed uniquely. -/
lemma allRepliedCheck_iff {s : RoomState} (hu : usersNodup s) (hs : statsNodup s) :
    allRepliedCheck s = true ↔
      ((answeredIds s).toFinset = (onlineIds s).toFinset ∧ onlineCount s ≠ 0) := by
  have honodup : (onlineIds s).Nodup := by
    have hsub : (onlineIds s).Sublist (s.users.map (fun u => u.userId)) :=
      List.Sublist.map _ (List.filter_sublist s.users)
    exact hu.sublist hsub
  unfold allRepliedCheck
  simp only [Bool.and_eq_true, decide_eq_true_eq, List.all_eq_true]
  constructor
  · rintro ⟨⟨⟨hpos, hlen⟩, hfil⟩, hstatpos, hall⟩
    have honline : ∀ u ∈ s.users.filter (fun u => u.isOnline),
        u.userId ∈ s.currentGameStats.map (fun st => st.userId) := by
      have := (filter_length_eq_iff
        (fun u => decide (u.userId ∈ s.currentGameStats.map (fun st => st.userId)))
        (s.users.filter (fun u => u.isOnline))).mp hfil
      intro u hu2
      simpa using this u hu2
    constructor
    · apply Finset.ext
      intro uid
      simp only [List.mem_toFinset, answeredIds, onlineIds, onlineUsersOf, List.mem_map]
      constructor
      · rintro ⟨st, hst, rfl⟩
        have := hall st hst
        simpa [List.mem_map] using this
      · rintro ⟨u, hu2, rfl⟩
        have := honline u hu2
        simpa [List.mem_map] using this
    · unfold onlineCount onlineUsersOf
      omega
  · rintro ⟨hFin, hno⟩
    have hmem : ∀ uid, uid ∈ answeredIds s ↔ uid ∈ onlineIds s := by
      intro uid
      rw [← List.mem_toFinset, ← List.mem_toFinset (l := onlineIds s), hFin]
    have hs2 : (answeredIds s).Nodup := hs
    have hlen : (answeredIds s).length = (onlineIds s).length := by
      rw [← List.toFinset_card_of_nodup hs2, ← List.toFinset_card_of_nodup honodup, hFin]
    have hlen2 : (s.users.filter (fun u => u.isOnline)).length = s.currentGameStats.length := by
      have h1 : (answeredIds s).length = s.currentGameStats.length := by
        simp [answeredIds]
      have h2 : (onlineIds s).length = (s.users.filter (fun u => u.isOnline)).length := by
        simp [onlineIds, onlineUsersOf]
      omega
    have hopos : 0 < (s.users.filter (fun u => u.isOnline)).length := by
      unfold onlineCount onlineUsersOf at hno
      omega
    refine ⟨⟨⟨hopos, hlen2⟩, ?_⟩, by omega, ?_⟩
    · apply (filter_length_eq_iff _ _).mpr
      intro u hu2
      have : u.userId ∈ onlineIds s := by
        simp only [onlineIds, onlineUsersOf, List.mem_map]
        exact ⟨u, hu2, rfl⟩
      have := (hmem u.userId).mpr this
      simpa [answeredIds] using this
    · intro st hst
      have : st.userId ∈ answeredIds s := by
        simp only [answeredIds, List.mem_map]
        exact ⟨st, hst, rfl⟩
      have := (hmem st.userId).mp this
      simpa [onlineIds, onlineUsersOf, List.mem_map] using this

/-! ### Helper lemmas about the vote handler -/

lemma voteRecordStep_selectedNextGame (s : RoomState) (uid : String) (u : User)
    (vo : VoteOption) (gameId : Option String) :
    (voteRecordStep s uid u vo gameId).selectedNextGame = s.selectedNextGame := by
  unfold voteRecordStep
  cases h : u.nextGameVote <;> simp only [] <;> split <;> simp

lemma voteResolveStep_votesRaw (s : RoomState) :
    (voteResolveStep s).votesRaw = s.votesRaw := rfl

lemma voteResolveStep_votesSmart (s : RoomState) :
    (voteResolveStep s).votesSmart = s.votesSmart := rfl

lemma voteResolveStep_selectedNextGame (s : RoomState) :
    (voteResolveStep s).selectedNextGame =
      some (if s.votesSmart.readOr0 ≤ s.votesRaw.readOr0
            then VoteOption.raw else VoteOption.smart) := rfl

/-! ### Claim C3 -/

def cexTrace3 : List Event := [
  .connect (some "A") "c1" "#66C0F4",
  .connect (some "B") "c2" "#1E90FF",
  .message "c1" (.nextGameVote "raw" (some "G2")),
  .message "c2" (.nextGameVote "raw" (some "G2"))]

/-- C3 (counterexample): a reachable state in which the vote quorum has just
resolved (the winning option is selected and the deferred activation is
pending) while the per-option tallies are still `{raw: 2, smart: 0}` — they
were not reset to zero at the instant of resolution. -/
theorem C3_counterexample :
    Reachable (runEvents cexTrace3) ∧
    (runEvents cexTrace3).selectedNextGame = some VoteOption.raw ∧
    (runEvents cexTrace3).pendingVoteTimer = true ∧
    (runEvents cexTrace3).votesRaw = Tally.num 2 ∧
    (runEvents cexTrace3).votesRaw ≠ Tally.num 0 :=
  ⟨reachable_runEvents cexTrace3 (by decide), by decide, by decide, by decide, by decide⟩

/-- C3 (amended): at the instant the vote quorum resolves the round state and
every participant's vote field are cleared immediately, but the per-option
tallies are left untouched; they are reset to zero only by the deferred
one-second activation callback, which also clears the candidate ids and the
selected option. -/
theorem C3_tally_reset_only_in_deferred_activation :
    (∀ s : RoomState,
        (voteResolveStep s).votesRaw = s.votesRaw ∧
        (voteResolveStep s).votesSmart = s.votesSmart ∧
        (voteResolveStep s).pendingVoteTimer = true ∧
        (voteResolveStep s).currentGameStats = [] ∧
        (voteResolveStep s).roomStatus = RoomStatus.in_progress ∧
        (voteResolveStep s).correctAnswer = none ∧
        ((voteResolveStep s).users.all (fun u => decide (u.nextGameVote = none))) = true) ∧
    (∀ s : RoomState,
        (voteTimerFire s).votesRaw = Tally.num 0 ∧
        (voteTimerFire s).votesSmart = Tally.num 0 ∧
        (voteTimerFire s).nextGameIdRaw = none ∧
        (voteTimerFire s).nextGameIdSmart = none ∧
        (voteTimerFire s).selectedNextGame = none) := by
  constructor
  · intro s
    refine ⟨rfl, rfl, rfl, rfl, rfl, rfl, ?_⟩
    simp [voteResolveStep, List.all_eq_true]
  · intro s
    exact ⟨rfl, rfl, rfl, rfl, rfl⟩

/-! ### Claim C4 -/

/-- C4: when the vote quorum resolves, the selected option is the
deterministic function `rawVotes >= smartVotes ? 'raw' : 'smart'` of the two
tallies: the strictly higher tally wins and an exact tie goes to `'raw'`. -/
theorem C4_tie_break_deterministic (s : RoomState) (connId optionStr : String)
    (gameId : Option String) (uid : String) (u : User) (vo : VoteOption)
    (hlk : listLookup s.connectionToUserId connId = some uid) (hne : uid ≠ "")
    (hfu : findUser s uid = some u) (hon : u.isOnline = true)
    (hvo : parseVoteOption optionStr = some vo)
    (hall : allVotedCheck (voteRecordStep s uid u vo gameId) = true)
    (hsel : s.selectedNextGame = none) :
    ((handleNextGameVote s connId optionStr gameId).1.votesRaw.readOr0 >
        (handleNextGameVote s connId optionStr gameId).1.votesSmart.readOr0 →
      (handleNextGameVote s connId optionStr gameId).1.selectedNextGame = some VoteOption.raw) ∧
    ((handleNextGameVote s connId optionStr gameId).1.votesSmart.readOr0 >
        (handleNextGameVote s connId optionStr gameId).1.votesRaw.readOr0 →
      (handleNextGameVote s connId optionStr gameId).1.selectedNextGame = some VoteOption.smart) ∧
    ((handleNextGameVote s connId optionStr gameId).1.votesRaw.readOr0 =
        (handleNextGameVote s connId optionStr gameId).1.votesSmart.readOr0 →
      (handleNextGameVote s connId optionStr gameId).1.selectedNextGame = some VoteOption.raw) := by
  have hres : (handleNextGameVote s connId optionStr gameId).1 =
      voteResolveStep (voteRecordStep s uid u vo gameId) := by
    simp [handleNextGameVote, hlk, if_neg hne, hfu, hon, hvo, hall,
          voteRecordStep_selectedNextGame, hsel]
  rw [hres, voteResolveStep_selectedNextGame, voteResolveStep_votesRaw,
    voteResolveStep_votesSmart]
  refine ⟨?_, ?_, ?_⟩
  · intro h
    rw [if_pos (by omega)]
  · intro h
    rw [if_neg (by omega)]
  · intro h
    rw [if_pos (by omega)]

def c4state : RoomState := runEvents [.connect (some "A") "c1" "#66C0F4"]

/-- C4 (witness): with one online user voting `raw` the tallies are `1 : 0`
and the quorum resolves to `raw`. -/
theorem C4_witness :
    (handleNextGameVote c4state "c1" "raw" none).1.selectedNextGame = some VoteOption.raw :=
  (C4_tie_break_deterministic c4state "c1" "raw" none "A" (newUser "c1" "A" "#66C0F4")
    VoteOption.raw (by decide) (by decide) (by decide) (by decide) (by decide)
    (by decide) (by decide)).1 (by decide)

/-! ### Claim C6 -/

def cexState6 : RoomState :=
  runEvents [.connect (some "A") "c1" "#66C0F4", .connect (some "B") "c2" "#1E90FF"]

/-- C6 (counterexample): a message with an unrecognized `type` tag is not
answered with an error; it is re-broadcast to the other connections of the
room (here connection `c2`, which is not the sender). -/
theorem C6_counterexample :
    Reachable cexState6 ∧
    (onMessage cexState6 "c1" (Inbound.other "ping")).2 = [Effect.broadcastOthers "ping"] ∧
    Effect.errorToSender ∉ (onMessage cexState6 "c1" (Inbound.other "ping")).2 ∧
    effectRecipients cexState6 "c1" (Effect.broadcastOthers "ping") = ["c2"] :=
  ⟨reachable_runEvents _ (by decide), by decide, by decide, by decide⟩

/-- C6 (amended): an unparseable frame is answered with an error sent to the
offending connection only and mutates nothing; a parseable message with an
unrecognized `type` tag also mutates nothing and triggers no error, but is
re-broadcast to every connection in the room except the sender. -/
theorem C6_amended_protocol_errors :
    (∀ (s : RoomState) (cid : String),
        (onMessage s cid Inbound.malformed).1 = s ∧
        (onMessage s cid Inbound.malformed).2 = [Effect.errorToSender] ∧
        effectRecipients s cid Effect.errorToSender = [cid]) ∧
    (∀ (s : RoomState) (cid tag : String),
        (onMessage s cid (Inbound.other tag)).1 = s ∧
        (onMessage s cid (Inbound.other tag)).2 = [Effect.broadcastOthers tag] ∧
        ∀ r ∈ effectRecipients s cid (Effect.broadcastOthers tag), r ≠ cid) := by
  refine ⟨fun s cid => ⟨rfl, rfl, rfl⟩, fun s cid tag => ⟨rfl, rfl, ?_⟩⟩
  intro r hr
  simp only [effectRecipients, List.mem_map, List.mem_filter, decide_eq_true_eq] at hr
  obtain ⟨c, ⟨_, hne⟩, rfl⟩ := hr
  exact hne

/-- C6 (amended, witness): concrete instance of the malformed and
unrecognized cases on a two-client room. -/
theorem C6_amended_witness :
    (onMessage cexState6 "c1" Inbound.malformed).1 = cexState6 ∧
    ∀ r ∈ effectRecipients cexState6 "c1" (Effect.broadcastOthers "x"), r ≠ "c1" :=
  ⟨(C6_amended_protocol_errors.1 cexState6 "c1").1,
   (C6_amended_protocol_errors.2 cexState6 "c1" "x").2.2⟩

/-! ### Claim C9 -/

def cexTrace9 : List Event := [
  .connect (some "A") "c1" "#66C0F4",
  .connect (some "B") "c2" "#1E90FF",
  .message "c1" (.guess (some "G1") 5 none),
  .message "c1" (.nextGameVote "raw" none),
  .connect (some "A") "c3" "#66C0F4"]

def c9state : RoomState := runEvents cexTrace9

def c9after : RoomState := (onMessage c9state "c2" (.nextGameVote "smart" none)).1

/-- C9: after a duplicate-connection eviction plus reattach, the participant's
answer entry is gone and their vote's tally was retracted, but the
`nextGameVote` field is still set (only `hasReplied`/`replyOption` were
cleared); consequently, once the remaining participant votes, the vote quorum
resolves even though the reattached participant's vote is counted in no tally
(tally sum 1 with 2 online participants). -/
theorem C9_eviction_leaves_vote_field :
    Reachable c9state ∧
    (findUser c9state "A").map (fun u => u.nextGameVote) = some (some VoteOption.raw) ∧
    (findUser c9state "A").map (fun u => u.isOnline) = some true ∧
    (findUser c9state "A").map (fun u => u.hasReplied) = some false ∧
    (findUser c9state "A").map (fun u => u.replyOption) = some none ∧
    c9state.currentGameStats = [] ∧
    c9state.votesRaw = Tally.absent ∧
    tallySum c9state = 0 ∧
    c9after.pendingVoteTimer = true ∧
    tallySum c9after = 1 ∧
    onlineCount c9after = 2 :=
  ⟨reachable_runEvents cexTrace9 (by decide), by decide, by decide, by decide, by decide,
    by decide, by decide, by decide, by decide, by decide, by decide⟩

/-! ### Claim C7 -/

lemma isNewGameCheck_same (s : RoomState) :
    isNewGameCheck s (some s.currentGameId) = false := by
  unfold isNewGameCheck
  simp

/-- The guard structure of `handleGuess` (lines 496-508): the submission is
processed only when the connection routes to a non-empty user id, that user
exists and is online, and the room is not in a completed round (unless the
submission starts a new round). -/
def guessProcessed (s : RoomState) (connId : String) (gameId : Option String) : Prop :=
  ∃ uid u, listLookup s.connectionToUserId connId = some uid ∧ uid ≠ "" ∧
    findUser s uid = some u ∧ u.isOnline = true ∧
    ¬(s.roomStatus = RoomStatus.completed ∧ isNewGameCheck s gameId = false)

lemma handleGuess_not_processed (s : RoomState) (cid : String) (gameId : Option String)
    (gv : Int) (ca : Option Int) (h : ¬ guessProcessed s cid gameId) :
    (handleGuess s cid gameId gv ca).1 = s := by
  unfold handleGuess
  cases hlk : listLookup s.connectionToUserId cid with
  | none => rfl
  | some uid =>
    simp only []
    by_cases h1 : uid = ""
    · simp [h1]
    · rw [if_neg h1]
      cases hfu : findUser s uid with
      | none => rfl
      | some u =>
        simp only []
        by_cases h2 : u.isOnline = true
        · have h3 : s.roomStatus = RoomStatus.completed ∧ isNewGameCheck s gameId = false := by
            by_contra h4
            exact h ⟨uid, u, hlk, h1, hfu, h2, h4⟩
          simp [h2, if_pos h3]
        · have h2b : u.isOnline = false := by
            revert h2
            cases u.isOnline <;> simp
          simp [h2b]

lemma storeCorrectAnswer_users (s : RoomState) (b : Bool) (ca : Option Int) :
    (storeCorrectAnswer s b ca).users = s.users := by
  unfold storeCorrectAnswer
  (repeat' split) <;> rfl

lemma storeCorrectAnswer_currentGameStats (s : RoomState) (b : Bool) (ca : Option Int) :
    (storeCorrectAnswer s b ca).currentGameStats = s.currentGameStats := by
  unfold storeCorrectAnswer
  (repeat' split) <;> rfl

lemma storeCorrectAnswer_roomStatus (s : RoomState) (b : Bool) (ca : Option Int) :
    (storeCorrectAnswer s b ca).roomStatus = s.roomStatus := by
  unfold storeCorrectAnswer
  (repeat' split) <;> rfl

lemma storeCorrectAnswer_currentGameId (s : RoomState) (b : Bool) (ca : Option Int) :
    (storeCorrectAnswer s b ca).currentGameId = s.currentGameId := by
  unfold storeCorrectAnswer
  (repeat' split) <;> rfl

lemma recordGuess_users (s : RoomState) (uid : String) (gv : Int) :
    (recordGuess s uid gv).users =
      updUser uid (fun v => { v with replyOption := some gv, hasReplied := true }) s.users := rfl

lemma recordGuess_currentGameStats (s : RoomState) (uid : String) (gv : Int) :
    (recordGuess s uid gv).currentGameStats =
      (s.currentGameStats.filter (fun st => decide (st.userId ≠ uid))) ++
        [{ userId := uid, answerValue := gv }] := rfl

lemma recordGuess_roomStatus (s : RoomState) (uid : String) (gv : Int) :
    (recordGuess s uid gv).roomStatus = s.roomStatus := rfl

lemma recordGuess_currentGameId (s : RoomState) (uid : String) (gv : Int) :
    (recordGuess s uid gv).currentGameId = s.currentGameId := rfl

lemma recordGuess_correctAnswer (s : RoomState) (uid : String) (gv : Int) :
    (recordGuess s uid gv).correctAnswer = s.correctAnswer := rfl

lemma completeIfAllReplied_users (s : RoomState) :
    (completeIfAllReplied s).users = s.users := by
  unfold completeIfAllReplied
  split <;> rfl

lemma completeIfAllReplied_currentGameStats (s : RoomState) :
    (completeIfAllReplied s).currentGameStats = s.currentGameStats := by
  unfold completeIfAllReplied
  split <;> rfl

lemma completeIfAllReplied_correctAnswer (s : RoomState) :
    (completeIfAllReplied s).correctAnswer = s.correctAnswer := by
  unfold completeIfAllReplied
  split <;> rfl

lemma completeIfAllReplied_currentGameId (s : RoomState) :
    (completeIfAllReplied s).currentGameId = s.currentGameId := by
  unfold completeIfAllReplied
  split <;> rfl

lemma handleGuess_spec_same (s : RoomState) (cid : String) (gv : Int) (ca : Option Int)
    (uid : String) (u : User)
    (hlk : listLookup s.connectionToUserId cid = some uid) (hne : uid ≠ "")
    (hfu : findUser s uid = some u) (hon : u.isOnline = true)
    (hprog : s.roomStatus = RoomStatus.in_progress) :
    (handleGuess s cid (some s.currentGameId) gv ca).1.currentGameId = s.currentGameId ∧
    (handleGuess s cid (some s.currentGameId) gv ca).1.currentGameStats =
      (s.currentGameStats.filter (fun st => decide (st.userId ≠ uid))) ++
        [{ userId := uid, answerValue := gv }] ∧
    (handleGuess s cid (some s.currentGameId) gv ca).1.users =
      updUser uid (fun v => { v with replyOption := some gv, hasReplied := true }) s.users := by
  have hnew : isNewGameCheck s (some s.currentGameId) = false := isNewGameCheck_same s
  unfold handleGuess
  rw [hlk]
  simp only []
  rw [if_neg hne, hfu]
  simp only [hon, hnew, hprog]
  simp only [Bool.false_eq_true, if_false, reduceCtorEq, false_and, and_true]
  refine ⟨?_, ?_, ?_⟩
  · rw [completeIfAllReplied_currentGameId, recordGuess_currentGameId,
      storeCorrectAnswer_currentGameId]
  · rw [completeIfAllReplied_currentGameStats, recordGuess_currentGameStats,
      storeCorrectAnswer_currentGameStats]
  · rw [completeIfAllReplied_users, recordGuess_users, storeCorrectAnswer_users]

/-- C7: a submit-answer carrying the room's current round id never
re-triggers the new-round reset: if the round is already completed the
submission is ignored entirely (state unchanged, answers kept), and otherwise
the round id is kept, every other participant's recorded answer survives, and
every other participant's record is untouched. -/
theorem C7_duplicate_round_id_idempotent :
    (∀ (s : RoomState) (cid : String) (g : String) (gv : Int) (ca : Option Int),
        s.roomStatus = RoomStatus.completed → g = s.currentGameId →
        (handleGuess s cid (some g) gv ca).1 = s) ∧
    (∀ (s : RoomState) (cid : String) (g : String) (gv : Int) (ca : Option Int),
        g = s.currentGameId →
        (handleGuess s cid (some g) gv ca).1.currentGameId = s.currentGameId ∧
        (∀ st ∈ s.currentGameStats,
          (∀ uid, listLookup s.connectionToUserId cid = some uid → st.userId ≠ uid) →
          st ∈ (handleGuess s cid (some g) gv ca).1.currentGameStats) ∧
        (∀ u ∈ s.users,
          (∀ uid, listLookup s.connectionToUserId cid = some uid → u.userId ≠ uid) →
          u ∈ (handleGuess s cid (some g) gv ca).1.users)) := by
  constructor
  · intro s cid g gv ca hcomp hg
    subst hg
    apply handleGuess_not_processed
    rintro ⟨uid, u, hlk, hne, hfu, hon, hbad⟩
    exact hbad ⟨hcomp, isNewGameCheck_same s⟩
  · intro s cid g gv ca hg
    subst hg
    by_cases hp : guessProcessed s cid (some s.currentGameId)
    · obtain ⟨uid, u, hlk, hne, hfu, hon, hnc⟩ := hp
      have hprog : s.roomStatus = RoomStatus.in_progress := by
        cases hst : s.roomStatus with
        | in_progress => rfl
        | completed => exact absurd ⟨hst, isNewGameCheck_same s⟩ hnc
      obtain ⟨hid, hstats, husers⟩ :=
        handleGuess_spec_same s cid gv ca uid u hlk hne hfu hon hprog
      refine ⟨hid, ?_, ?_⟩
      · intro st hst hguard
        rw [hstats]
        refine List.mem_append_left _ ?_
        rw [List.mem_filter]
        exact ⟨hst, by simpa using hguard uid hlk⟩
      · intro v hv hguard
        rw [husers]
        unfold updUser
        have : (if v.userId = uid then
            ({ v with replyOption := some gv, hasReplied := true } : User) else v) = v := by
          rw [if_neg (hguard uid hlk)]
        rw [← this]
        exact List.mem_map_of_mem _ hv
    · have heq := handleGuess_not_processed s cid (some s.currentGameId) gv ca hp
      rw [heq]
      exact ⟨rfl, fun st hst _ => hst, fun v hv _ => hv⟩

def c7completed : RoomState :=
  { initialRoomState with
    roomStatus := RoomStatus.completed,
    currentGameId := "G1",
    currentGameStats := [{ userId := "A", answerValue := 5 }] }

def c7trace : List Event := [
  .connect (some "A") "c1" "#66C0F4",
  .connect (some "B") "c2" "#1E90FF",
  .message "c1" (.guess (some "G1") 5 none)]

/-- C7 (witness): a duplicate submission for round `G1` after completion
leaves the state — including the recorded answers — exactly as it was, and a
same-round submission in progress keeps the other participant's answer. -/
theorem C7_witness :
    (handleGuess c7completed "c1" (some "G1") 7 none).1 = c7completed ∧
    ({ userId := "A", answerValue := 5 } : Stat) ∈
      (handleGuess (runEvents c7trace) "c2" (some "G1") 9 none).1.currentGameStats := by
  constructor
  · exact C7_duplicate_round_id_idempotent.1 c7completed "c1" "G1" 7 none (by decide) (by decide)
  · refine (C7_duplicate_round_id_idempotent.2 (runEvents c7trace) "c2" "G1" 9 none
      (by decide)).2.1 { userId := "A", answerValue := 5 } (by decide) ?_
    intro uid h
    have hb : listLookup (runEvents c7trace).connectionToUserId "c2" = some "B" := by decide
    rw [hb] at h
    cases h
    decide

/-! ### Claim C1 -/

lemma handleGuess_processed_eq (s : RoomState) (cid : String) (gameId : Option String)
    (gv : Int) (ca : Option Int) (uid : String) (u : User)
    (hlk : listLookup s.connectionToUserId cid = some uid) (hne : uid ≠ "")
    (hfu : findUser s uid = some u) (hon : u.isOnline = true)
    (hnc : ¬(s.roomStatus = RoomStatus.completed ∧ isNewGameCheck s gameId = false)) :
    (handleGuess s cid gameId gv ca).1 =
      completeIfAllReplied (recordGuess (storeCorrectAnswer
        (if isNewGameCheck s gameId then newGameReset s gameId else s)
        (isNewGameCheck s gameId) ca) uid gv) := by
  unfold handleGuess
  rw [hlk]
  simp only []
  rw [if_neg hne, hfu]
  simp only [hon]
  rw [if_neg hnc]
  simp

lemma usersNodup_users_eq {s t : RoomState} (h : t.users = s.users) (hn : usersNodup s) :
    usersNodup t := by
  unfold usersNodup
  rw [h]
  exact hn

lemma statsNodup_stats_eq {s t : RoomState} (h : t.currentGameStats = s.currentGameStats)
    (hn : statsNodup s) : statsNodup t := by
  unfold statsNodup
  rw [h]
  exact hn

lemma usersNodup_updUser {s t : RoomState} (uid : String) (f : User → User)
    (hf : ∀ u, (f u).userId = u.userId) (h : t.users = updUser uid f s.users)
    (hn : usersNodup s) : usersNodup t := by
  unfold usersNodup
  rw [h, updUser_map_userId uid f hf]
  exact hn

lemma statsNodup_recordGuess (s : RoomState) (uid : String) (gv : Int)
    (hn : statsNodup s) : statsNodup (recordGuess s uid gv) := by
  unfold statsNodup
  rw [recordGuess_currentGameStats, List.map_append]
  rw [List.nodup_append]
  refine ⟨?_, List.nodup_singleton _, ?_⟩
  · exact hn.sublist (List.Sublist.map _ (List.filter_sublist _))
  · intro x hx hy
    simp only [List.map_cons, List.map_nil, List.mem_singleton] at hy
    subst hy
    simp only [List.mem_map, List.mem_filter, decide_eq_true_eq] at hx
    obtain ⟨st, ⟨_, hst⟩, rfl⟩ := hx
    exact hst rfl

lemma quorumCondition_congr (s t : RoomState)
    (hstats : t.currentGameStats = s.currentGameStats)
    (husers : t.users = s.users) (hcorr : t.correctAnswer = s.correctAnswer) :
    quorumCondition t ↔ quorumCondition s := by
  simp only [quorumCondition, answeredIds, onlineIds, onlineUsersOf, onlineCount]
  rw [hstats, husers, hcorr]

lemma completeIfAllReplied_roomStatus_iff (s : RoomState)
    (hprog : s.roomStatus = RoomStatus.in_progress)
    (hu : usersNodup s) (hs : statsNodup s) :
    (completeIfAllReplied s).roomStatus = RoomStatus.completed ↔
      quorumCondition (completeIfAllReplied s) := by
  have hq : quorumCondition (completeIfAllReplied s) ↔ quorumCondition s :=
    quorumCondition_congr _ _ (completeIfAllReplied_currentGameStats s)
      (completeIfAllReplied_users s) (completeIfAllReplied_correctAnswer s)
  rw [hq]
  unfold completeIfAllReplied
  split
  · rename_i h
    obtain ⟨h1, _, h3⟩ := h
    simp only []
    constructor
    · intro _
      have h4 := (allRepliedCheck_iff hu hs).mp h1
      exact ⟨h4.1, h4.2, h3⟩
    · intro _
      trivial
  · rename_i h
    rw [hprog]
    constructor
    · intro hc
      cases hc
    · intro hq2
      exact absurd ⟨(allRepliedCheck_iff hu hs).mpr ⟨hq2.1, hq2.2.1⟩, hprog, hq2.2.2⟩ h

lemma evictOne_roomStatus (s : RoomState) (c : Conn) :
    (evictOne s c).roomStatus = s.roomStatus := by
  unfold evictOne
  (repeat' split) <;> simp

lemma foldl_evictOne_roomStatus (L : List Conn) (s : RoomState) :
    (L.foldl evictOne s).roomStatus = s.roomStatus := by
  induction L generalizing s with
  | nil => rfl
  | cons c L ih => rw [List.foldl_cons, ih, evictOne_roomStatus]

lemma handleClose_roomStatus (s : RoomState) (cid : String) :
    (handleClose s cid).roomStatus = s.roomStatus := by
  unfold handleClose
  cases hlk : listLookup s.connectionToUserId cid with
  | none => rfl
  | some uid =>
    simp only []
    by_cases h1 : uid = ""
    · simp [h1]
    · simp only [if_neg h1]
      cases hfu : findUser s uid with
      | none => rfl
      | some u =>
        simp only []
        by_cases h2 : u.isOnline
        · simp only [h2, if_true]
          cases u.nextGameVote <;> simp
        · simp [h2]

lemma evictDuplicates_roomStatus (s : RoomState) (uid : Option String) :
    (evictDuplicates s uid).roomStatus = s.roomStatus := by
  unfold evictDuplicates
  cases uid with
  | none => rfl
  | some v => exact foldl_evictOne_roomStatus _ s

lemma handleConnect_roomStatus (s : RoomState) (uid : Option String) (cid color : String) :
    (handleConnect s uid cid color).roomStatus = s.roomStatus := by
  unfold handleConnect
  simp only []
  split <;> simp [evictDuplicates_roomStatus]

def cexTrace1 : List Event := [
  .connect (some "A") "c1" "#66C0F4",
  .connect (some "B") "c2" "#1E90FF",
  .message "c1" (.guess (some "G1") 5 (some 5)),
  .close "c2"]

/-- C1 (counterexample): a reachable room state in which the set of
participants with a recorded answer equals the set of online participants,
that set is non-empty and the correct answer is known — the quorum condition
first became true because participant B went offline — yet the room is still
`in_progress`: the `close` handler performs no completion check. -/
theorem C1_counterexample :
    Reachable (runEvents cexTrace1) ∧
    quorumCondition (runEvents cexTrace1) ∧
    (runEvents cexTrace1).roomStatus ≠ RoomStatus.completed :=
  ⟨reachable_runEvents cexTrace1 (by decide), by decide, by decide⟩

/-- C1 (amended): the room is marked `completed` only while an answer
submission is being processed: a processed submission completes the round
exactly when the resulting state satisfies the quorum condition (answer set =
online set, at least one online participant, correct answer known), while a
disconnect or a connection (with its evictions) never changes the round
status, so a quorum condition that first becomes true because a participant
went offline leaves the round `in_progress` until the next processed
submission. -/
theorem C1_amended_completion_only_on_submission :
    (∀ (s : RoomState) (cid : String) (gameId : Option String) (gv : Int) (ca : Option Int),
        usersNodup s → statsNodup s → guessProcessed s cid gameId →
        ((handleGuess s cid gameId gv ca).1.roomStatus = RoomStatus.completed ↔
          quorumCondition (handleGuess s cid gameId gv ca).1)) ∧
    (∀ (s : RoomState) (cid : String), (handleClose s cid).roomStatus = s.roomStatus) ∧
    (∀ (s : RoomState) (uid : Option String) (cid color : String),
        (handleConnect s uid cid color).roomStatus = s.roomStatus) := by
  refine ⟨?_, ?_, ?_⟩
  · intro s cid gameId gv ca hnu hns hp
    obtain ⟨uid, u, hlk, hne, hfu, hon, hnc⟩ := hp
    rw [handleGuess_processed_eq s cid gameId gv ca uid u hlk hne hfu hon hnc]
    have hprog1 : (if isNewGameCheck s gameId then newGameReset s gameId else s).roomStatus =
        RoomStatus.in_progress := by
      by_cases hnew : isNewGameCheck s gameId = true
      · rw [if_pos hnew]
        rfl
      · have hnf : isNewGameCheck s gameId = false := by
          revert hnew
          cases isNewGameCheck s gameId <;> simp
        rw [hnf]
        simp only [Bool.false_eq_true, if_false]
        cases hst : s.roomStatus with
        | in_progress => rfl
        | completed => exact absurd ⟨hst, hnf⟩ hnc
    have hnu1 : usersNodup (if isNewGameCheck s gameId then newGameReset s gameId else s) := by
      by_cases hnew : isNewGameCheck s gameId = true
      · rw [if_pos hnew]
        have husers2 : (newGameReset s gameId).users =
            s.users.map (fun u => { u with hasReplied := false, replyOption := none }) := rfl
        unfold usersNodup
        rw [husers2, map_userId_of_keyPreserving
          (fun u => { u with hasReplied := false, replyOption := none }) (fun u => rfl)]
        exact hnu
      · have hnf : isNewGameCheck s gameId = false := by
          revert hnew
          cases isNewGameCheck s gameId <;> simp
        rw [hnf]
        simpa using hnu
    have hns1 : statsNodup (if isNewGameCheck s gameId then newGameReset s gameId else s) := by
      by_cases hnew : isNewGameCheck s gameId = true
      · rw [if_pos hnew]
        exact List.nodup_nil
      · have hnf : isNewGameCheck s gameId = false := by
          revert hnew
          cases isNewGameCheck s gameId <;> simp
        rw [hnf]
        simpa using hns
    apply completeIfAllReplied_roomStatus_iff
    · rw [recordGuess_roomStatus, storeCorrectAnswer_roomStatus]
      exact hprog1
    · exact usersNodup_updUser uid
        (fun v => { v with replyOption := some gv, hasReplied := true }) (fun v => rfl)
        (recordGuess_users _ uid gv)
        (usersNodup_users_eq (storeCorrectAnswer_users _ _ ca) hnu1)
    · exact statsNodup_recordGuess _ uid gv
        (statsNodup_stats_eq (storeCorrectAnswer_currentGameStats _ _ ca) hns1)
  · intro s cid
    exact handleClose_roomStatus s cid
  · intro s uid cid color
    exact handleConnect_roomStatus s uid cid color

def c1wstate : RoomState := runEvents [.connect (some "A") "c1" "#66C0F4"]

/-- C1 (amended, witness): a single online participant submitting answer `5`
with correct answer `5` completes the round, and the completed state
satisfies the quorum condition. -/
theorem C1_amended_witness :
    usersNodup c1wstate ∧
    ((handleGuess c1wstate "c1" (some "G1") 5 (some 5)).1.roomStatus = RoomStatus.completed ↔
      quorumCondition (handleGuess c1wstate "c1" (some "G1") 5 (some 5)).1) :=
  ⟨by decide,
   C1_amended_completion_only_on_submission.1 c1wstate "c1" (some "G1") 5 (some 5)
     (by decide) (by decide)
     ⟨"A", newUser "c1" "A" "#66C0F4", by decide, by decide, by decide, by decide, by decide⟩⟩

/-! ### Claim C2 -/

/-- The persistent ids present in the room's `users` map. -/
def usersIds (s : RoomState) : List String := s.users.map (fun u => u.userId)

lemma evictOne_leaderboard (s : RoomState) (c : Conn) :
    (evictOne s c).leaderboard = s.leaderboard := by
  unfold evictOne
  (repeat' split) <;> simp

lemma foldl_evictOne_leaderboard (L : List Conn) (s : RoomState) :
    (L.foldl evictOne s).leaderboard = s.leaderboard := by
  induction L generalizing s with
  | nil => rfl
  | cons c L ih => rw [List.foldl_cons, ih, evictOne_leaderboard]

lemma evictDuplicates_leaderboard (s : RoomState) (uid : Option String) :
    (evictDuplicates s uid).leaderboard = s.leaderboard := by
  unfold evictDuplicates
  cases uid with
  | none => rfl
  | some v => exact foldl_evictOne_leaderboard _ s

lemma handleConnect_leaderboard (s : RoomState) (uid : Option String) (cid color : String) :
    (handleConnect s uid cid color).leaderboard = s.leaderboard := by
  unfold handleConnect
  simp only []
  split <;> simp [evictDuplicates_leaderboard]

lemma handleClose_leaderboard (s : RoomState) (cid : String) :
    (handleClose s cid).leaderboard = s.leaderboard := by
  unfold handleClose
  cases hlk : listLookup s.connectionToUserId cid with
  | none => rfl
  | some uid =>
    simp only []
    by_cases h1 : uid = ""
    · simp [h1]
    · simp only [if_neg h1]
      cases hfu : findUser s uid with
      | none => rfl
      | some u =>
        simp only []
        by_cases h2 : u.isOnline
        · simp only [h2, if_true]
          cases u.nextGameVote <;> simp
        · simp [h2]

lemma evictOne_usersIds (s : RoomState) (c : Conn) :
    usersIds (evictOne s c) = usersIds s := by
  unfold evictOne usersIds
  cases hlk : listLookup s.connectionToUserId c.connectionId with
  | none => rfl
  | some oldUid =>
    simp only []
    by_cases h1 : oldUid = ""
    · simp [h1]
    · simp only [if_neg h1]
      cases hfu : findUser s oldUid with
      | none => rfl
      | some u =>
        simp only []
        cases hv : u.nextGameVote <;> simp only [hv] <;> split <;>
          simp [updUser_map_userId oldUid evictedUser (fun v => rfl)]

lemma foldl_evictOne_usersIds (L : List Conn) (s : RoomState) :
    usersIds (L.foldl evictOne s) = usersIds s := by
  induction L generalizing s with
  | nil => rfl
  | cons c L ih => rw [List.foldl_cons, ih, evictOne_usersIds]

lemma evictDuplicates_usersIds (s : RoomState) (uid : Option String) :
    usersIds (evictDuplicates s uid) = usersIds s := by
  unfold evictDuplicates
  cases uid with
  | none => rfl
  | some v => exact foldl_evictOne_usersIds _ s

lemma handleConnect_usersIds_mono (s : RoomState) (urlUid : Option String)
    (cid color : String) (uid : String) (h : uid ∈ usersIds s) :
    uid ∈ usersIds (handleConnect s urlUid cid color) := by
  unfold handleConnect
  simp only []
  have h1 : uid ∈ usersIds (evictDuplicates s (normalizeUserId urlUid)) := by
    rw [evictDuplicates_usersIds]
    exact h
  split
  · rename_i u2 hfu
    unfold usersIds at *
    simp only []
    rw [updUser_map_userId _ (reattachUser cid) (fun v => rfl)]
    exact h1
  · unfold usersIds at *
    simp only [List.map_append]
    exact List.mem_append_left _ h1

lemma handleClose_usersIds (s : RoomState) (cid : String) :
    usersIds (handleClose s cid) = usersIds s := by
  unfold handleClose usersIds
  cases hlk : listLookup s.connectionToUserId cid with
  | none => rfl
  | some uid =>
    simp only []
    by_cases h1 : uid = ""
    · simp [h1]
    · simp only [if_neg h1]
      cases hfu : findUser s uid with
      | none => rfl
      | some u =>
        simp only []
        by_cases h2 : u.isOnline
        · simp only [h2, if_true]
          cases u.nextGameVote <;>
            simp [updUser_map_userId uid offlineUser (fun v => rfl)]
        · simp [h2, updUser_map_userId uid offlineUser (fun v => rfl)]

lemma handleGuess_usersIds (s : RoomState) (cid : String) (gameId : Option String)
    (gv : Int) (ca : Option Int) :
    usersIds (handleGuess s cid gameId gv ca).1 = usersIds s := by
  unfold handleGuess
  cases hlk : listLookup s.connectionToUserId cid with
  | none => rfl
  | some uid =>
    simp only []
    by_cases h1 : uid = ""
    · simp [h1]
    · simp only [if_neg h1]
      cases hfu : findUser s uid with
      | none => rfl
      | some u =>
        simp only []
        by_cases h2 : u.isOnline = false
        · simp [h2]
        · rw [if_neg h2]
          split
          · rfl
          · unfold usersIds
            rw [completeIfAllReplied_users, recordGuess_users, storeCorrectAnswer_users,
              updUser_map_userId uid
                (fun v => { v with replyOption := some gv, hasReplied := true }) (fun v => rfl)]
            split
            · have hng : (newGameReset s gameId).users =
                  s.users.map (fun u => { u with hasReplied := false, replyOption := none }) := rfl
              rw [hng, map_userId_of_keyPreserving
                (fun u => { u with hasReplied := false, replyOption := none }) (fun v => rfl)]
            · rfl

lemma voteRecordStep_usersIds (s : RoomState) (uid : String) (u : User)
    (vo : VoteOption) (gameId : Option String) :
    usersIds (voteRecordStep s uid u vo gameId) = usersIds s := by
  unfold voteRecordStep usersIds
  cases u.nextGameVote <;> simp only [] <;> split <;>
    simp [updUser_map_userId uid (fun v => { v with nextGameVote := some vo }) (fun v => rfl)]

lemma voteResolveStep_usersIds (s : RoomState) :
    usersIds (voteResolveStep s) = usersIds s := by
  unfold voteResolveStep usersIds
  simp only []
  exact map_userId_of_keyPreserving
    (fun v => { v with nextGameVote := none, hasReplied := false, replyOption := none })
    (fun v => rfl) _

lemma handleNextGameVote_usersIds (s : RoomState) (cid optionStr : String)
    (gameId : Option String) :
    usersIds (handleNextGameVote s cid optionStr gameId).1 = usersIds s := by
  unfold handleNextGameVote
  cases hlk : listLookup s.connectionToUserId cid with
  | none => rfl
  | some uid =>
    simp only []
    by_cases h1 : uid = ""
    · simp [h1]
    · simp only [if_neg h1]
      cases hfu : findUser s uid with
      | none => rfl
      | some u =>
        simp only []
        by_cases h2 : u.isOnline = false
        · simp [h2]
        · rw [if_neg h2]
          cases hvo : parseVoteOption optionStr with
          | none => rfl
          | some vo =>
            simp only []
            split
            · rw [voteResolveStep_usersIds, voteRecordStep_usersIds]
            · rw [voteRecordStep_usersIds]

lemma handleUserReady_usersIds (s : RoomState) (cid : String) (f : Option Bool)
    (nick : Option String) :
    usersIds (handleUserReady s cid f nick).1 = usersIds s := by
  unfold handleUserReady
  cases hlk : listLookup s.connectionToUserId cid with
  | none => rfl
  | some uid =>
    simp only []
    by_cases h1 : uid = ""
    · simp [h1]
    · simp only [if_neg h1]
      cases hfu : findUser s uid with
      | none => rfl
      | some u =>
        simp only []
        by_cases h2 : u.isOnline = false
        · simp [h2]
        · rw [if_neg h2]
          unfold usersIds
          split <;> split <;>
            simp [updUser_map_userId uid
                (fun v => { v with name := (nick.getD "").trim }) (fun v => rfl),
              updUser_map_userId uid
                (fun v => { v with hasReplied := false, replyOption := none }) (fun v => rfl)]

lemma handleResetLeaderboard_usersIds (s : RoomState) :
    usersIds (handleResetLeaderboard s).1 = usersIds s := by
  unfold handleResetLeaderboard usersIds
  simp only []
  exact map_userId_of_keyPreserving
    (fun v => { v with score := 0, failedGuesses := 0, totalGuesses := 0, hasReplied := false })
    (fun v => rfl) _

lemma step_usersIds_mono (s : RoomState) (e : Event) (uid : String)
    (h : uid ∈ usersIds s) : uid ∈ usersIds (step s e) := by
  cases e with
  | connect urlUid cid color => exact handleConnect_usersIds_mono s urlUid cid color uid h
  | close cid => rw [step, handleClose_usersIds]; exact h
  | voteTimer => exact h
  | message cid m =>
    cases m with
    | malformed => exact h
    | guess gameId gv ca => rw [step, onMessage, handleGuess_usersIds]; exact h
    | correctGuess => exact h
    | wrongGuess => exact h
    | nextGame => exact h
    | userReady f nick => rw [step, onMessage, handleUserReady_usersIds]; exact h
    | resetLeaderboard => rw [step, onMessage, handleResetLeaderboard_usersIds]; exact h
    | nextGameVote opt gid => rw [step, onMessage, handleNextGameVote_usersIds]; exact h
    | other tag => exact h

/-- Connection-lifecycle events: a connection opening (with its duplicate
evictions) or closing. -/
def isConnEvent : Event → Prop
  | .connect _ _ _ => True
  | .close _ => True
  | .message _ _ => False
  | .voteTimer => False

/-- C2: across any sequence of connects, disconnects and duplicate-connection
evictions presenting any identifiers, the leaderboard — the cumulative
correct/failed counters keyed by persistent id — is unchanged, and no event
of any kind ever removes a `Participant` record from the room. -/
theorem C2_reconnect_preserves_counters :
    (∀ (s : RoomState) (evs : List Event), (∀ e ∈ evs, isConnEvent e) →
        (evs.foldl step s).leaderboard = s.leaderboard) ∧
    (∀ (s : RoomState) (e : Event) (uid : String),
        uid ∈ usersIds s → uid ∈ usersIds (step s e)) := by
  constructor
  · intro s evs
    induction evs generalizing s with
    | nil => intro _; rfl
    | cons e evs ih =>
      intro h
      rw [List.foldl_cons, ih _ (fun x hx => h x (List.mem_cons_of_mem e hx))]
      have he := h e (List.mem_cons_self e evs)
      cases e with
      | connect urlUid cid color => exact handleConnect_leaderboard s urlUid cid color
      | close cid => exact handleClose_leaderboard s cid
      | message cid m => exact absurd he (by simp [isConnEvent])
      | voteTimer => exact absurd he (by simp [isConnEvent])
  · exact step_usersIds_mono

def c2wstate : RoomState :=
  { (runEvents [.connect (some "A") "c1" "#66C0F4"]) with
    leaderboard := [{ userId := "A", correctAnswers := 3, failedAnswers := 1 }] }

/-- C2 (witness): participant A's leaderboard entry `3 : 1` survives a
disconnect followed by a reconnect under a new connection id, and A's record
is still present after the disconnect. -/
theorem C2_witness :
    ((([Event.close "c1", Event.connect (some "A") "c2" "#66C0F4"]).foldl step c2wstate).leaderboard =
      [{ userId := "A", correctAnswers := 3, failedAnswers := 1 }]) ∧
    "A" ∈ usersIds (step c2wstate (Event.close "c1")) :=
  ⟨C2_reconnect_preserves_counters.1 c2wstate _ (by intro e he; fin_cases he <;> trivial),
   C2_reconnect_preserves_counters.2 c2wstate (Event.close "c1") "A" (by decide)⟩

/-! ### Claim C10 -/

/-- Every user's legacy per-`User` counters are zero. -/
def zeroScores (l : List User) : Prop :=
  ∀ u ∈ l, u.score = 0 ∧ u.failedGuesses = 0 ∧ u.totalGuesses = 0

lemma zeroScores_map {l : List User} {g : User → User}
    (hg : ∀ u, ((g u).score = u.score ∧ (g u).failedGuesses = u.failedGuesses ∧
      (g u).totalGuesses = u.totalGuesses) ∨
      ((g u).score = 0 ∧ (g u).failedGuesses = 0 ∧ (g u).totalGuesses = 0))
    (h : zeroScores l) : zeroScores (l.map g) := by
  intro v hv
  obtain ⟨u, hu, rfl⟩ := List.mem_map.mp hv
  obtain ⟨a, b, c⟩ := h u hu
  rcases hg u with ⟨d, e, f2⟩ | ⟨d, e, f2⟩
  · exact ⟨by rw [d, a], by rw [e, b], by rw [f2, c]⟩
  · exact ⟨d, e, f2⟩

lemma zeroScores_updUser {l : List User} (uid : String) (f : User → User)
    (hf : ∀ u, (f u).score = u.score ∧ (f u).failedGuesses = u.failedGuesses ∧
      (f u).totalGuesses = u.totalGuesses)
    (h : zeroScores l) : zeroScores (updUser uid f l) := by
  apply zeroScores_map ?_ h
  intro u
  by_cases hu : u.userId = uid
  · rw [if_pos hu]
    exact Or.inl (hf u)
  · rw [if_neg hu]
    exact Or.inl ⟨rfl, rfl, rfl⟩

lemma zeroScores_evictOne (s : RoomState) (c : Conn) (h : zeroScores s.users) :
    zeroScores (evictOne s c).users := by
  unfold evictOne
  cases hlk : listLookup s.connectionToUserId c.connectionId with
  | none => exact h
  | some oldUid =>
    simp only []
    by_cases h1 : oldUid = ""
    · rw [if_pos h1]
      exact h
    · simp only [if_neg h1]
      cases hfu : findUser s oldUid with
      | none => exact h
      | some u =>
        simp only []
        cases hv : u.nextGameVote <;> simp only [] <;> split <;>
          simp only [setVotes_users] <;>
          exact zeroScores_updUser oldUid evictedUser (fun v => ⟨rfl, rfl, rfl⟩) h

lemma zeroScores_foldl_evictOne (L : List Conn) (s : RoomState) (h : zeroScores s.users) :
    zeroScores ((L.foldl evictOne s).users) := by
  induction L generalizing s with
  | nil => exact h
  | cons c L ih =>
    rw [List.foldl_cons]
    exact ih _ (zeroScores_evictOne s c h)

lemma zeroScores_handleConnect (s : RoomState) (urlUid : Option String) (cid color : String)
    (h : zeroScores s.users) : zeroScores (handleConnect s urlUid cid color).users := by
  unfold handleConnect
  simp only []
  have h1 : zeroScores (evictDuplicates s (normalizeUserId urlUid)).users := by
    unfold evictDuplicates
    cases normalizeUserId urlUid with
    | none => exact h
    | some v => exact zeroScores_foldl_evictOne _ s h
  split
  · exact zeroScores_updUser _ (reattachUser cid) (fun v => ⟨rfl, rfl, rfl⟩) h1
  · intro v hv
    rcases List.mem_append.mp hv with hv2 | hv2
    · exact h1 v hv2
    · rw [List.mem_singleton.mp hv2]
      exact ⟨rfl, rfl, rfl⟩

lemma handleClose_users_cases (s : RoomState) (cid : String) :
    (handleClose s cid).users = s.users ∨
      ∃ uid, (handleClose s cid).users = updUser uid offlineUser s.users := by
  unfold handleClose
  cases hlk : listLookup s.connectionToUserId cid with
  | none => exact Or.inl rfl
  | some uid =>
    simp only []
    by_cases h1 : uid = ""
    · rw [if_pos h1]
      exact Or.inl rfl
    · simp only [if_neg h1]
      cases hfu : findUser s uid with
      | none => exact Or.inl rfl
      | some u =>
        simp only []
        refine Or.inr ⟨uid, ?_⟩
        by_cases h2 : u.isOnline
        · simp only [h2, if_true]
          cases u.nextGameVote <;> simp only [] <;> (try split) <;> simp
        · simp [h2]

lemma zeroScores_handleClose (s : RoomState) (cid : String) (h : zeroScores s.users) :
    zeroScores (handleClose s cid).users := by
  rcases handleClose_users_cases s cid with he | ⟨uid, he⟩
  · rw [he]
    exact h
  · rw [he]
    exact zeroScores_updUser uid offlineUser (fun v => ⟨rfl, rfl, rfl⟩) h

lemma zeroScores_handleGuess (s : RoomState) (cid : String) (gameId : Option String)
    (gv : Int) (ca : Option Int) (h : zeroScores s.users) :
    zeroScores (handleGuess s cid gameId gv ca).1.users := by
  unfold handleGuess
  cases hlk : listLookup s.connectionToUserId cid with
  | none => exact h
  | some uid =>
    simp only []
    by_cases h1 : uid = ""
    · rw [if_pos h1]
      exact h
    · simp only [if_neg h1]
      cases hfu : findUser s uid with
      | none => exact h
      | some u =>
        simp only []
        by_cases h2 : u.isOnline = false
        · rw [if_pos h2]
          exact h
        · rw [if_neg h2]
          split
          · exact h
          · rw [completeIfAllReplied_users, recordGuess_users, storeCorrectAnswer_users]
            refine zeroScores_updUser uid
              (fun v => { v with replyOption := some gv, hasReplied := true })
              (fun v => ⟨rfl, rfl, rfl⟩) ?_
            split
            · exact zeroScores_map (fun v => Or.inl ⟨rfl, rfl, rfl⟩) h
            · exact h

lemma voteRecordStep_users (s : RoomState) (uid : String) (u : User) (vo : VoteOption)
    (gameId : Option String) :
    (voteRecordStep s uid u vo gameId).users =
      updUser uid (fun v => { v with nextGameVote := some vo }) s.users := by
  unfold voteRecordStep
  cases u.nextGameVote <;> simp only [] <;> split <;> simp

lemma voteResolveStep_users (s : RoomState) :
    (voteResolveStep s).users =
      s.users.map (fun v => { v with nextGameVote := none, hasReplied := false,
                                     replyOption := none }) := rfl

lemma zeroScores_handleNextGameVote (s : RoomState) (cid optionStr : String)
    (gameId : Option String) (h : zeroScores s.users) :
    zeroScores (handleNextGameVote s cid optionStr gameId).1.users := by
  unfold handleNextGameVote
  cases hlk : listLookup s.connectionToUserId cid with
  | none => exact h
  | some uid =>
    simp only []
    by_cases h1 : uid = ""
    · rw [if_pos h1]
      exact h
    · simp only [if_neg h1]
      cases hfu : findUser s uid with
      | none => exact h
      | some u =>
        simp only []
        by_cases h2 : u.isOnline = false
        · rw [if_pos h2]
          exact h
        · rw [if_neg h2]
          cases hvo : parseVoteOption optionStr with
          | none => exact h
          | some vo =>
            simp only []
            have hrec : zeroScores (voteRecordStep s uid u vo gameId).users := by
              rw [voteRecordStep_users]
              exact zeroScores_updUser uid (fun v => { v with nextGameVote := some vo })
                (fun v => ⟨rfl, rfl, rfl⟩) h
            split
            · rw [voteResolveStep_users]
              exact zeroScores_map (fun v => Or.inl ⟨rfl, rfl, rfl⟩) hrec
            · exact hrec

lemma zeroScores_handleUserReady (s : RoomState) (cid : String) (f : Option Bool)
    (nick : Option String) (h : zeroScores s.users) :
    zeroScores (handleUserReady s cid f nick).1.users := by
  unfold handleUserReady
  cases hlk : listLookup s.connectionToUserId cid with
  | none => exact h
  | some uid =>
    simp only []
    by_cases h1 : uid = ""
    · rw [if_pos h1]
      exact h
    · simp only [if_neg h1]
      cases hfu : findUser s uid with
      | none => exact h
      | some u =>
        simp only []
        by_cases h2 : u.isOnline = false
        · rw [if_pos h2]
          exact h
        · rw [if_neg h2]
          split
          · refine zeroScores_updUser uid (fun v => { v with name := (nick.getD "").trim })
              (fun v => ⟨rfl, rfl, rfl⟩) ?_
            split
            · exact zeroScores_updUser uid
                (fun v => { v with hasReplied := false, replyOption := none })
                (fun v => ⟨rfl, rfl, rfl⟩) h
            · exact h
          · split
            · exact zeroScores_updUser uid
                (fun v => { v with hasReplied := false, replyOption := none })
                (fun v => ⟨rfl, rfl, rfl⟩) h
            · exact h

lemma zeroScores_step (s : RoomState) (e : Event) (h : zeroScores s.users) :
    zeroScores (step s e).users := by
  cases e with
  | connect urlUid cid color => exact zeroScores_handleConnect s urlUid cid color h
  | close cid => exact zeroScores_handleClose s cid h
  | voteTimer => exact h
  | message cid m =>
    cases m with
    | malformed => exact h
    | guess gameId gv ca => exact zeroScores_handleGuess s cid gameId gv ca h
    | correctGuess => exact h
    | wrongGuess => exact h
    | nextGame => exact h
    | userReady f nick => exact zeroScores_handleUserReady s cid f nick h
    | resetLeaderboard =>
      show zeroScores (handleResetLeaderboard s).1.users
      unfold handleResetLeaderboard
      simp only []
      exact zeroScores_map (fun v => Or.inr ⟨rfl, rfl, rfl⟩) h
    | nextGameVote opt gid => exact zeroScores_handleNextGameVote s cid opt gid h
    | other tag => exact h

/-- C10: on every reachable room state, every `User`'s legacy `score`,
`failedGuesses` and `totalGuesses` counters are zero: no message handler ever
increments them — round completion credits `correctAnswers`/`failedAnswers`
in the separate leaderboard entries — and the only writes (user creation and
`reset-leaderboard`) set them to zero. -/
theorem C10_legacy_user_counters_always_zero (s : RoomState) (h : Reachable s) :
    ∀ u ∈ s.users, u.score = 0 ∧ u.failedGuesses = 0 ∧ u.totalGuesses = 0 := by
  induction h with
  | init => intro u hu; cases hu
  | step _ _ ih => exact zeroScores_step _ _ ih

def c10trace : List Event := [
  .connect (some "A") "c1" "#66C0F4",
  .message "c1" (.guess (some "G1") 5 (some 5))]

/-- C10 (witness): after participant A's round completed (crediting the
leaderboard), A's record exists and its legacy counters are still zero. -/
theorem C10_witness :
    (runEvents c10trace).users ≠ [] ∧
    ((runEvents c10trace).users.all (fun u => decide (u.score = 0) &&
      decide (u.failedGuesses = 0) && decide (u.totalGuesses = 0))) = true := by
  refine ⟨by decide, ?_⟩
  have h := C10_legacy_user_counters_always_zero (runEvents c10trace)
    (reachable_runEvents c10trace (by decide))
  rw [List.all_eq_true]
  intro u hu
  obtain ⟨a, b, c⟩ := h u hu
  simp [a, b, c]

/-! ### Claim C5: arithmetic and counting helpers -/

lemma readOr0_incVote (t : Tally) : t.incVote.readOr0 = t.readOr0 + 1 := by
  cases t <;> rfl

lemma readOr0_decVote (t : Tally) : t.decVote.readOr0 = t.readOr0 - 1 := by
  cases t <;> rfl

lemma readOr0_retract (t : Tally) : t.retract.readOr0 = t.readOr0 - 1 := by
  cases t with
  | absent => rfl
  | nan => rfl
  | num n =>
    show (if n - 1 = 0 then Tally.absent else Tally.num (n - 1)).readOr0 =
      (Tally.num n).readOr0 - 1
    by_cases hn : n - 1 = 0
    · rw [if_pos hn]
      simp [Tally.readOr0, hn]
    · rw [if_neg hn]
      rfl

/-- The number of users whose current vote field is `vo` (online or not). -/
def voteHolders (s : RoomState) (vo : VoteOption) : Nat :=
  s.users.countP (fun u => decide (u.nextGameVote = some vo))

lemma updUser_noop {l : List User} {uid : String} (f : User → User)
    (h : ∀ u ∈ l, u.userId ≠ uid) : updUser uid f l = l := by
  induction l with
  | nil => rfl
  | cons a l ih =>
    unfold updUser at *
    rw [List.map_cons, if_neg (h a (List.mem_cons_self a l)),
      ih (fun u hu => h u (List.mem_cons_of_mem a hu))]

lemma countP_updUser (p : User → Bool) (uid : String) (f : User → User)
    (hf : ∀ u, (f u).userId = u.userId) :
    ∀ {l : List User} {u0 : User},
      (l.map (fun u => u.userId)).Nodup →
      l.find? (fun u => decide (u.userId = uid)) = some u0 →
      (updUser uid f l).countP p + (if p u0 then 1 else 0) =
        l.countP p + (if p (f u0) then 1 else 0) := by
  intro l
  induction l with
  | nil => intro u0 _ hfind; cases hfind
  | cons a l ih =>
    intro u0 hnd hfind
    rw [List.find?_cons] at hfind
    rw [List.map_cons, List.nodup_cons] at hnd
    by_cases ha : a.userId = uid
    · have ha2 : decide (a.userId = uid) = true := by simp [ha]
      rw [ha2] at hfind
      simp only [Option.some.injEq] at hfind
      subst hfind
      have hrest : updUser uid f l = l := by
        apply updUser_noop
        intro u hu he
        exact absurd (by rw [ha, ← he]; exact List.mem_map_of_mem _ hu) hnd.1
      have hcons : updUser uid f (a :: l) = f a :: updUser uid f l := by
        unfold updUser
        rw [List.map_cons, if_pos ha]
      rw [hcons, hrest, List.countP_cons, List.countP_cons]
      omega
    · have ha2 : decide (a.userId = uid) = false := by simp [ha]
      rw [ha2] at hfind
      have hiha := ih hnd.2 hfind
      have hcons : updUser uid f (a :: l) = a :: updUser uid f l := by
        unfold updUser
        rw [List.map_cons, if_neg ha]
      rw [hcons, List.countP_cons, List.countP_cons]
      omega

lemma countP_updUser_invariant (p : User → Bool) (uid : String) (f : User → User)
    (hf : ∀ u, p (f u) = p u) (l : List User) :
    (updUser uid f l).countP p = l.countP p := by
  unfold updUser
  rw [List.countP_map]
  apply List.countP_congr
  intro a _
  by_cases ha : a.userId = uid <;> simp [Function.comp, ha, hf a]

lemma countP_map_eq (p : User → Bool) (g : User → User)
    (hg : ∀ u, p (g u) = p u) (l : List User) :
    (l.map g).countP p = l.countP p := by
  rw [List.countP_map]
  apply List.countP_congr
  intro a _
  simp [Function.comp, hg a]

lemma countP_pos_of_mem {l : List User} {u : User} (p : User → Bool)
    (hu : u ∈ l) (hp : p u = true) : 1 ≤ l.countP p :=
  List.countP_pos_iff.mpr ⟨u, hu, hp⟩

lemma mem_of_find?_eq_some {l : List User} {u0 : User} {uid : String}
    (h : l.find? (fun u => decide (u.userId = uid)) = some u0) : u0 ∈ l :=
  List.mem_of_find?_eq_some h

/-! ### Claim C5: association-list lemmas -/

lemma listLookup_listRemove_ne (l : List (String × String)) {k k2 : String}
    (h : k ≠ k2) : listLookup (listRemove l k2) k = listLookup l k := by
  induction l with
  | nil => rfl
  | cons a l ih =>
    unfold listRemove at *
    rw [List.filter_cons]
    by_cases ha : a.1 = k2
    · rw [if_neg (by simp [ha])]
      have hne : ¬ (decide (a.1 = k) = true) := by
        simp only [decide_eq_true_eq]
        rw [ha]
        exact fun hh => h hh.symm
      unfold listLookup at *
      rw [List.find?_cons_of_neg (p := fun (q : String × String) => decide (q.1 = k)) _ hne]
      exact ih
    · rw [if_pos (by simp [ha])]
      unfold listLookup at *
      by_cases hk : a.1 = k
      · rw [List.find?_cons_of_pos (p := fun (q : String × String) => decide (q.1 = k)) _ (by simp [hk]),
          List.find?_cons_of_pos (p := fun (q : String × String) => decide (q.1 = k)) _ (by simp [hk])]
      · rw [List.find?_cons_of_neg (p := fun (q : String × String) => decide (q.1 = k)) _ (by simp [hk]),
          List.find?_cons_of_neg (p := fun (q : String × String) => decide (q.1 = k)) _ (by simp [hk])]
        exact ih

lemma listLookup_map_upsertFn (l : List (String × String)) (k v : String)
    (hany : l.any (fun p => decide (p.1 = k)) = true) :
    listLookup (l.map (fun p => if p.1 = k then (k, v) else p)) k = some v := by
  induction l with
  | nil => cases hany
  | cons a l ih =>
    rw [List.map_cons]
    by_cases ha : a.1 = k
    · rw [if_pos ha]
      unfold listLookup
      rw [List.find?_cons_of_pos _ (by simp)]
      rfl
    · rw [if_neg ha]
      unfold listLookup at *
      rw [List.find?_cons_of_neg _ (by simp [ha])]
      apply ih
      rw [List.any_cons] at hany
      have hfa : decide (a.1 = k) = false := by simp [ha]
      rw [hfa, Bool.false_or] at hany
      exact hany

lemma listLookup_append_single (l : List (String × String)) (k v : String)
    (hnone : l.any (fun p => decide (p.1 = k)) = false) :
    listLookup (l ++ [(k, v)]) k = some v := by
  induction l with
  | nil =>
    unfold listLookup
    rw [List.nil_append, List.find?_cons_of_pos _ (by simp)]
    rfl
  | cons a l ih =>
    rw [List.any_cons] at hnone
    have ha : decide (a.1 = k) = false := by
      cases hb : (decide (a.1 = k)) with
      | true => rw [hb, Bool.true_or] at hnone; cases hnone
      | false => rfl
    unfold listLookup at *
    rw [List.cons_append, List.find?_cons_of_neg _ (by simp [ha])]
    apply ih
    rw [ha, Bool.false_or] at hnone
    exact hnone

lemma listLookup_listUpsert_self (l : List (String × String)) (k v : String) :
    listLookup (listUpsert l k v) k = some v := by
  unfold listUpsert
  by_cases hany : l.any (fun p => decide (p.1 = k)) = true
  · rw [if_pos hany]
    exact listLookup_map_upsertFn l k v hany
  · rw [if_neg hany]
    apply listLookup_append_single
    revert hany
    cases l.any (fun p => decide (p.1 = k)) <;> simp

lemma listLookup_map_upsertFn_ne (l : List (String × String)) (k v : String)
    {k2 : String} (h : k2 ≠ k) :
    listLookup (l.map (fun p => if p.1 = k then (k, v) else p)) k2 = listLookup l k2 := by
  induction l with
  | nil => rfl
  | cons a l ih =>
    rw [List.map_cons]
    unfold listLookup at *
    by_cases ha : a.1 = k
    · have h1 : ¬ (decide (((k, v) : String × String).1 = k2) = true) := by
        simp only [decide_eq_true_eq]
        exact fun hh => h hh.symm
      have h2 : ¬ (decide (a.1 = k2) = true) := by
        simp only [decide_eq_true_eq]
        rw [ha]
        exact fun hh => h hh.symm
      rw [if_pos ha, List.find?_cons_of_neg (p := fun (q : String × String) => decide (q.1 = k2)) _ h1,
        List.find?_cons_of_neg (p := fun (q : String × String) => decide (q.1 = k2)) _ h2]
      exact ih
    · rw [if_neg ha]
      by_cases hk2 : a.1 = k2
      · rw [List.find?_cons_of_pos (p := fun (q : String × String) => decide (q.1 = k2)) _ (by simp [hk2]),
          List.find?_cons_of_pos (p := fun (q : String × String) => decide (q.1 = k2)) _ (by simp [hk2])]
      · rw [List.find?_cons_of_neg (p := fun (q : String × String) => decide (q.1 = k2)) _ (by simp [hk2]),
          List.find?_cons_of_neg (p := fun (q : String × String) => decide (q.1 = k2)) _ (by simp [hk2])]
        exact ih

lemma listLookup_listUpsert_ne (l : List (String × String)) (k v : String) {k2 : String}
    (h : k2 ≠ k) : listLookup (listUpsert l k v) k2 = listLookup l k2 := by
  unfold listUpsert
  split
  · exact listLookup_map_upsertFn_ne l k v h
  · unfold listLookup
    rw [List.find?_append]
    have hlast : List.find? (fun (q : String × String) => decide (q.1 = k2)) [(k, v)] = none := by
      rw [List.find?_cons_of_neg (p := fun (q : String × String) => decide (q.1 = k2)) _
        (by simp only [decide_eq_true_eq]; exact fun hh => h hh.symm)]
      rfl
    rw [hlast, Option.or_none]

/-! ### Claim C5: frame lemmas for the message handlers -/

lemma storeCorrectAnswer_frame (s : RoomState) (b : Bool) (ca : Option Int) :
    (storeCorrectAnswer s b ca).clients = s.clients ∧
    (storeCorrectAnswer s b ca).connectionToUserId = s.connectionToUserId ∧
    (storeCorrectAnswer s b ca).votesRaw = s.votesRaw ∧
    (storeCorrectAnswer s b ca).votesSmart = s.votesSmart ∧
    (storeCorrectAnswer s b ca).selectedNextGame = s.selectedNextGame := by
  unfold storeCorrectAnswer
  (repeat' split) <;> exact ⟨rfl, rfl, rfl, rfl, rfl⟩

lemma recordGuess_frame (s : RoomState) (uid : String) (gv : Int) :
    (recordGuess s uid gv).clients = s.clients ∧
    (recordGuess s uid gv).connectionToUserId = s.connectionToUserId ∧
    (recordGuess s uid gv).votesRaw = s.votesRaw ∧
    (recordGuess s uid gv).votesSmart = s.votesSmart ∧
    (recordGuess s uid gv).selectedNextGame = s.selectedNextGame :=
  ⟨rfl, rfl, rfl, rfl, rfl⟩

lemma completeIfAllReplied_frame (s : RoomState) :
    (completeIfAllReplied s).clients = s.clients ∧
    (completeIfAllReplied s).connectionToUserId = s.connectionToUserId ∧
    (completeIfAllReplied s).votesRaw = s.votesRaw ∧
    (completeIfAllReplied s).votesSmart = s.votesSmart ∧
    (completeIfAllReplied s).selectedNextGame = s.selectedNextGame := by
  unfold completeIfAllReplied
  split <;> exact ⟨rfl, rfl, rfl, rfl, rfl⟩

lemma handleGuess_frame (s : RoomState) (cid : String) (gameId : Option String)
    (gv : Int) (ca : Option Int) :
    (handleGuess s cid gameId gv ca).1.clients = s.clients ∧
    (handleGuess s cid gameId gv ca).1.connectionToUserId = s.connectionToUserId ∧
    (handleGuess s cid gameId gv ca).1.votesRaw = s.votesRaw ∧
    (handleGuess s cid gameId gv ca).1.votesSmart = s.votesSmart ∧
    (handleGuess s cid gameId gv ca).1.selectedNextGame = s.selectedNextGame := by
  unfold handleGuess
  cases hlk : listLookup s.connectionToUserId cid with
  | none => exact ⟨rfl, rfl, rfl, rfl, rfl⟩
  | some uid =>
    simp only []
    by_cases h1 : uid = ""
    · rw [if_pos h1]
      exact ⟨rfl, rfl, rfl, rfl, rfl⟩
    · rw [if_neg h1]
      cases hfu : findUser s uid with
      | none => exact ⟨rfl, rfl, rfl, rfl, rfl⟩
      | some u =>
        simp only []
        by_cases h2 : u.isOnline = false
        · rw [if_pos h2]
          exact ⟨rfl, rfl, rfl, rfl, rfl⟩
        · rw [if_neg h2]
          split
          · exact ⟨rfl, rfl, rfl, rfl, rfl⟩
          · have hc := completeIfAllReplied_frame (recordGuess (storeCorrectAnswer
              (if isNewGameCheck s gameId = true then newGameReset s gameId else s)
              (isNewGameCheck s gameId) ca) uid gv)
            have hr := recordGuess_frame (storeCorrectAnswer
              (if isNewGameCheck s gameId = true then newGameReset s gameId else s)
              (isNewGameCheck s gameId) ca) uid gv
            have hs := storeCorrectAnswer_frame
              (if isNewGameCheck s gameId = true then newGameReset s gameId else s)
              (isNewGameCheck s gameId) ca
            have hbase : (if isNewGameCheck s gameId = true then newGameReset s gameId else s).clients = s.clients ∧
                (if isNewGameCheck s gameId = true then newGameReset s gameId else s).connectionToUserId = s.connectionToUserId ∧
                (if isNewGameCheck s gameId = true then newGameReset s gameId else s).votesRaw = s.votesRaw ∧
                (if isNewGameCheck s gameId = true then newGameReset s gameId else s).votesSmart = s.votesSmart ∧
                (if isNewGameCheck s gameId = true then newGameReset s gameId else s).selectedNextGame = s.selectedNextGame := by
              split <;> exact ⟨rfl, rfl, rfl, rfl, rfl⟩
            refine ⟨?_, ?_, ?_, ?_, ?_⟩
            · rw [hc.1, hr.1, hs.1, hbase.1]
            · rw [hc.2.1, hr.2.1, hs.2.1, hbase.2.1]
            · rw [hc.2.2.1, hr.2.2.1, hs.2.2.1, hbase.2.2.1]
            · rw [hc.2.2.2.1, hr.2.2.2.1, hs.2.2.2.1, hbase.2.2.2.1]
            · rw [hc.2.2.2.2, hr.2.2.2.2, hs.2.2.2.2, hbase.2.2.2.2]

lemma voteRecordStep_frame (s : RoomState) (uid : String) (u : User) (vo : VoteOption)
    (gameId : Option String) :
    (voteRecordStep s uid u vo gameId).clients = s.clients ∧
    (voteRecordStep s uid u vo gameId).connectionToUserId = s.connectionToUserId := by
  unfold voteRecordStep
  cases u.nextGameVote <;> simp only [] <;> split <;>
    constructor <;> simp

lemma voteResolveStep_frame (s : RoomState) :
    (voteResolveStep s).clients = s.clients ∧
    (voteResolveStep s).connectionToUserId = s.connectionToUserId :=
  ⟨rfl, rfl⟩

lemma handleNextGameVote_frame (s : RoomState) (cid optionStr : String)
    (gameId : Option String) :
    (handleNextGameVote s cid optionStr gameId).1.clients = s.clients ∧
    (handleNextGameVote s cid optionStr gameId).1.connectionToUserId = s.connectionToUserId := by
  unfold handleNextGameVote
  cases hlk : listLookup s.connectionToUserId cid with
  | none => exact ⟨rfl, rfl⟩
  | some uid =>
    simp only []
    by_cases h1 : uid = ""
    · rw [if_pos h1]
      exact ⟨rfl, rfl⟩
    · rw [if_neg h1]
      cases hfu : findUser s uid with
      | none => exact ⟨rfl, rfl⟩
      | some u =>
        simp only []
        by_cases h2 : u.isOnline = false
        · rw [if_pos h2]
          exact ⟨rfl, rfl⟩
        · rw [if_neg h2]
          cases hvo : parseVoteOption optionStr with
          | none => exact ⟨rfl, rfl⟩
          | some vo =>
            simp only []
            have hr := voteRecordStep_frame s uid u vo gameId
            split
            · have hv := voteResolveStep_frame (voteRecordStep s uid u vo gameId)
              exact ⟨by rw [hv.1, hr.1], by rw [hv.2, hr.2]⟩
            · exact hr

lemma handleUserReady_frame (s : RoomState) (cid : String) (f : Option Bool)
    (nick : Option String) :
    (handleUserReady s cid f nick).1.clients = s.clients ∧
    (handleUserReady s cid f nick).1.connectionToUserId = s.connectionToUserId ∧
    (handleUserReady s cid f nick).1.votesRaw = s.votesRaw ∧
    (handleUserReady s cid f nick).1.votesSmart = s.votesSmart ∧
    (handleUserReady s cid f nick).1.selectedNextGame = s.selectedNextGame := by
  unfold handleUserReady
  cases hlk : listLookup s.connectionToUserId cid with
  | none => exact ⟨rfl, rfl, rfl, rfl, rfl⟩
  | some uid =>
    simp only []
    by_cases h1 : uid = ""
    · rw [if_pos h1]
      exact ⟨rfl, rfl, rfl, rfl, rfl⟩
    · rw [if_neg h1]
      cases hfu : findUser s uid with
      | none => exact ⟨rfl, rfl, rfl, rfl, rfl⟩
      | some u =>
        simp only []
        by_cases h2 : u.isOnline = false
        · rw [if_pos h2]
          exact ⟨rfl, rfl, rfl, rfl, rfl⟩
        · rw [if_neg h2]
          split <;> split <;> exact ⟨rfl, rfl, rfl, rfl, rfl⟩

lemma handleResetLeaderboard_frame (s : RoomState) :
    (handleResetLeaderboard s).1.clients = s.clients ∧
    (handleResetLeaderboard s).1.connectionToUserId = s.connectionToUserId ∧
    (handleResetLeaderboard s).1.votesRaw = s.votesRaw ∧
    (handleResetLeaderboard s).1.votesSmart = s.votesSmart ∧
    (handleResetLeaderboard s).1.selectedNextGame = s.selectedNextGame :=
  ⟨rfl, rfl, rfl, rfl, rfl⟩

/-! ### Claim C5: the exact tally effect of recording a vote -/

lemma voteRecordStep_getVotes (s : RoomState) (uid : String) (u : User) (vo : VoteOption)
    (gameId : Option String) (X : VoteOption) :
    getVotes (voteRecordStep s uid u vo gameId) X =
      if X = vo then
        (match u.nextGameVote with
          | some old => if X = old then (getVotes s X).decVote else getVotes s X
          | none => getVotes s X).incVote
      else
        (match u.nextGameVote with
         | some old => if X = old then (getVotes s X).decVote else getVotes s X
         | none => getVotes s X) := by
  unfold voteRecordStep
  cases hY : u.nextGameVote with
  | none =>
    cases X <;> cases vo <;>
      simp [getVotes, setVotes, setNextGameId, jsTruthyStr] <;>
      (try split) <;> simp [getVotes, setVotes, setNextGameId]
  | some Y =>
    cases X <;> cases vo <;> cases Y <;>
      simp [getVotes, setVotes, setNextGameId, jsTruthyStr] <;>
      (try split) <;> simp [getVotes, setVotes, setNextGameId]

lemma voteRecordStep_readOr0 (s : RoomState) (uid : String) (u : User) (vo : VoteOption)
    (gameId : Option String) (X : VoteOption) :
    (getVotes (voteRecordStep s uid u vo gameId) X).readOr0 =
      (getVotes s X).readOr0 - (if u.nextGameVote = some X then 1 else 0) +
        (if X = vo then 1 else 0) := by
  rw [voteRecordStep_getVotes]
  cases hY : u.nextGameVote with
  | none =>
    by_cases hX : X = vo <;> simp [hX, readOr0_incVote]
  | some Y =>
    cases X <;> cases vo <;> cases Y <;>
      simp [readOr0_incVote, readOr0_decVote]

/-! ### Claim C5: the inductive invariant -/

/-- Structural invariant of reachable room states used to bound the vote
tallies: users are keyed uniquely, an offline user holds no vote (`close`
clears the vote field), clients carry normalized ids and consistent routing
entries, and — whenever no vote resolution is pending activation — each
tally is bounded by the number of users whose vote field names that option. -/
structure InvC5 (s : RoomState) : Prop where
  unodup : usersNodup s
  offNoVote : ∀ u ∈ s.users, u.isOnline = false → u.nextGameVote = none
  cNorm : ∀ c ∈ s.clients, c.userId ≠ some ""
  routeOk : ∀ c ∈ s.clients,
    listLookup s.connectionToUserId c.connectionId = some (persistentOf c)
  cNodup : (s.clients.map (fun c => c.connectionId)).Nodup
  tallyBound : ∀ vo : VoteOption, s.selectedNextGame = none →
    (getVotes s vo).readOr0 ≤ voteHolders s vo

lemma find?_userId_unique {l : List User} {uid : String} {u0 u : User}
    (hnd : (l.map (fun v => v.userId)).Nodup)
    (hfind : l.find? (fun v => decide (v.userId = uid)) = some u0)
    (hu : u ∈ l) (huid : u.userId = uid) : u = u0 := by
  induction l with
  | nil => cases hu
  | cons a l ih =>
    rw [List.map_cons, List.nodup_cons] at hnd
    by_cases ha : a.userId = uid
    · rw [List.find?_cons_of_pos _ (by simp [ha])] at hfind
      simp only [Option.some.injEq] at hfind
      subst hfind
      rcases List.mem_cons.mp hu with rfl | hu2
      · rfl
      · exact absurd (by rw [ha, ← huid]; exact List.mem_map_of_mem _ hu2) hnd.1
    · rw [List.find?_cons_of_neg _ (by simp [ha])] at hfind
      rcases List.mem_cons.mp hu with rfl | hu2
      · exact absurd huid ha
      · exact ih hnd.2 hfind hu2

lemma mem_updUser_of_ne {l : List User} {uid : String} {f : User → User} {v : User}
    (hv : v ∈ updUser uid f l) (hne : v.userId ≠ uid)
    (hf : ∀ u, (f u).userId = u.userId) : v ∈ l := by
  obtain ⟨w, hw, rfl⟩ := List.mem_map.mp hv
  by_cases hwu : w.userId = uid
  · rw [if_pos hwu] at hne ⊢
    exact absurd (by rw [hf w, hwu]) hne
  · rw [if_neg hwu]
    exact hw

lemma offNoVote_updUser_pres {l : List User} (uid : String) (f : User → User)
    (hf : ∀ u, (f u).isOnline = u.isOnline ∧ (f u).nextGameVote = u.nextGameVote)
    (h : ∀ u ∈ l, u.isOnline = false → u.nextGameVote = none) :
    ∀ u ∈ updUser uid f l, u.isOnline = false → u.nextGameVote = none := by
  intro v hv hoff
  obtain ⟨w, hw, rfl⟩ := List.mem_map.mp hv
  by_cases hwu : w.userId = uid
  · rw [if_pos hwu] at hoff ⊢
    rw [(hf w).2]
    apply h w hw
    rw [← (hf w).1]
    exact hoff
  · rw [if_neg hwu] at hoff ⊢
    exact h w hw hoff

lemma offNoVote_map_pres {l : List User} (g : User → User)
    (hg : ∀ u, (g u).isOnline = u.isOnline ∧ (g u).nextGameVote = u.nextGameVote)
    (h : ∀ u ∈ l, u.isOnline = false → u.nextGameVote = none) :
    ∀ u ∈ l.map g, u.isOnline = false → u.nextGameVote = none := by
  intro v hv hoff
  obtain ⟨w, hw, rfl⟩ := List.mem_map.mp hv
  rw [(hg w).2]
  apply h w hw
  rw [← (hg w).1]
  exact hoff

lemma normalizeUserId_eq (x : Option String) :
    normalizeUserId x = if x = some "" then none else x := by
  unfold normalizeUserId
  split
  · rw [if_pos rfl]
  · rename_i hne
    rw [if_neg]
    intro hc
    subst hc
    exact hne rfl

lemma normalizeUserId_ne_empty (x : Option String) : normalizeUserId x ≠ some "" := by
  rw [normalizeUserId_eq]
  split
  · simp
  · rename_i hne
    exact hne

/-! ### Claim C5: invariant preservation, message handlers -/

lemma invC5_frame_users {s t : RoomState} (hInv : InvC5 s)
    (hcl : t.clients = s.clients) (hroute : t.connectionToUserId = s.connectionToUserId)
    (hvr : t.votesRaw = s.votesRaw) (hvs : t.votesSmart = s.votesSmart)
    (hsel : t.selectedNextGame = s.selectedNextGame)
    (hkeys : t.users.map (fun u => u.userId) = s.users.map (fun u => u.userId))
    (hoff : ∀ u ∈ t.users, u.isOnline = false → u.nextGameVote = none)
    (hhold : ∀ vo : VoteOption,
      t.users.countP (fun u => decide (u.nextGameVote = some vo)) =
        s.users.countP (fun u => decide (u.nextGameVote = some vo))) : InvC5 t := by
  refine ⟨?_, hoff, ?_, ?_, ?_, ?_⟩
  · unfold usersNodup
    rw [hkeys]
    exact hInv.unodup
  · rw [hcl]
    exact hInv.cNorm
  · rw [hcl, hroute]
    exact hInv.routeOk
  · rw [hcl]
    exact hInv.cNodup
  · intro vo hnone
    rw [hsel] at hnone
    have hgv : getVotes t vo = getVotes s vo := by
      cases vo
      · exact hvr
      · exact hvs
    unfold voteHolders
    rw [hgv, hhold vo]
    exact hInv.tallyBound vo hnone

lemma invC5_voteTimerFire (s : RoomState) (hInv : InvC5 s) : InvC5 (voteTimerFire s) := by
  refine ⟨hInv.unodup, hInv.offNoVote, hInv.cNorm, hInv.routeOk, hInv.cNodup, ?_⟩
  intro vo _
  cases vo <;> simp [voteTimerFire, getVotes, Tally.readOr0]

lemma invC5_handleResetLeaderboard (s : RoomState) (hInv : InvC5 s) :
    InvC5 (handleResetLeaderboard s).1 := by
  have hf := handleResetLeaderboard_frame s
  apply invC5_frame_users hInv hf.1 hf.2.1 hf.2.2.1 hf.2.2.2.1 hf.2.2.2.2
  · exact handleResetLeaderboard_usersIds s
  · show ∀ u ∈ (handleResetLeaderboard s).1.users, _
    unfold handleResetLeaderboard
    simp only []
    exact offNoVote_map_pres _ (fun u => ⟨rfl, rfl⟩) hInv.offNoVote
  · intro vo
    show ((handleResetLeaderboard s).1.users).countP _ = _
    unfold handleResetLeaderboard
    simp only []
    exact countP_map_eq (fun u => decide (u.nextGameVote = some vo))
      (fun v => { v with score := 0, failedGuesses := 0, totalGuesses := 0, hasReplied := false })
      (fun u => rfl) s.users

lemma invC5_handleUserReady (s : RoomState) (cid : String) (f : Option Bool)
    (nick : Option String) (hInv : InvC5 s) : InvC5 (handleUserReady s cid f nick).1 := by
  have hf := handleUserReady_frame s cid f nick
  apply invC5_frame_users hInv hf.1 hf.2.1 hf.2.2.1 hf.2.2.2.1 hf.2.2.2.2
  · exact handleUserReady_usersIds s cid f nick
  · unfold handleUserReady
    cases hlk : listLookup s.connectionToUserId cid with
    | none => exact hInv.offNoVote
    | some uid =>
      simp only []
      by_cases h1 : uid = ""
      · rw [if_pos h1]
        exact hInv.offNoVote
      · rw [if_neg h1]
        cases hfu : findUser s uid with
        | none => exact hInv.offNoVote
        | some u =>
          simp only []
          by_cases h2 : u.isOnline = false
          · rw [if_pos h2]
            exact hInv.offNoVote
          · rw [if_neg h2]
            split
            · refine offNoVote_updUser_pres uid _ (fun v => ⟨rfl, rfl⟩) ?_
              split
              · exact offNoVote_updUser_pres uid _ (fun v => ⟨rfl, rfl⟩) hInv.offNoVote
              · exact hInv.offNoVote
            · split
              · exact offNoVote_updUser_pres uid _ (fun v => ⟨rfl, rfl⟩) hInv.offNoVote
              · exact hInv.offNoVote
  · intro vo
    unfold handleUserReady
    cases hlk : listLookup s.connectionToUserId cid with
    | none => rfl
    | some uid =>
      simp only []
      by_cases h1 : uid = ""
      · rw [if_pos h1]
      · rw [if_neg h1]
        cases hfu : findUser s uid with
        | none => rfl
        | some u =>
          simp only []
          by_cases h2 : u.isOnline = false
          · rw [if_pos h2]
          · rw [if_neg h2]
            split
            · rw [countP_updUser_invariant (fun w => decide (w.nextGameVote = some vo)) uid
                (fun v => { v with name := (nick.getD "").trim }) (fun v => rfl)]
              split
              · rw [countP_updUser_invariant (fun w => decide (w.nextGameVote = some vo)) uid
                  (fun v => { v with hasReplied := false, replyOption := none }) (fun v => rfl)]
              · rfl
            · split
              · rw [countP_updUser_invariant (fun w => decide (w.nextGameVote = some vo)) uid
                  (fun v => { v with hasReplied := false, replyOption := none }) (fun v => rfl)]
              · rfl

lemma invC5_handleGuess (s : RoomState) (cid : String) (gameId : Option String)
    (gv : Int) (ca : Option Int) (hInv : InvC5 s) :
    InvC5 (handleGuess s cid gameId gv ca).1 := by
  by_cases hp : guessProcessed s cid gameId
  · obtain ⟨uid, u, hlk, hne, hfu, hon, hnc⟩ := hp
    rw [handleGuess_processed_eq s cid gameId gv ca uid u hlk hne hfu hon hnc]
    set base := if isNewGameCheck s gameId = true then newGameReset s gameId else s with hbase
    have hbaseInv :
        base.clients = s.clients ∧ base.connectionToUserId = s.connectionToUserId ∧
        base.votesRaw = s.votesRaw ∧ base.votesSmart = s.votesSmart ∧
        base.selectedNextGame = s.selectedNextGame ∧
        base.users.map (fun v => v.userId) = s.users.map (fun v => v.userId) ∧
        (∀ v ∈ base.users, v.isOnline = false → v.nextGameVote = none) ∧
        (∀ vo : VoteOption,
          base.users.countP (fun v => decide (v.nextGameVote = some vo)) =
            s.users.countP (fun v => decide (v.nextGameVote = some vo))) := by
      rw [hbase]
      split
      · refine ⟨rfl, rfl, rfl, rfl, rfl, ?_, ?_, ?_⟩
        · exact map_userId_of_keyPreserving
            (fun v => { v with hasReplied := false, replyOption := none }) (fun v => rfl) _
        · exact offNoVote_map_pres _ (fun v => ⟨rfl, rfl⟩) hInv.offNoVote
        · intro vo
          exact countP_map_eq (fun w => decide (w.nextGameVote = some vo))
            (fun v => { v with hasReplied := false, replyOption := none }) (fun v => rfl) s.users
      · exact ⟨rfl, rfl, rfl, rfl, rfl, rfl, hInv.offNoVote, fun vo => rfl⟩
    have hst := storeCorrectAnswer_frame base (isNewGameCheck s gameId) ca
    set s2 := storeCorrectAnswer base (isNewGameCheck s gameId) ca with hs2
    have hs2u : s2.users = base.users := storeCorrectAnswer_users _ _ _
    set s3 := recordGuess s2 uid gv with hs3
    have hs3u : s3.users =
        updUser uid (fun v => { v with replyOption := some gv, hasReplied := true }) s2.users :=
      recordGuess_users _ _ _
    have hrf := recordGuess_frame s2 uid gv
    have hcf := completeIfAllReplied_frame s3
    have hcu : (completeIfAllReplied s3).users = s3.users := completeIfAllReplied_users s3
    apply invC5_frame_users hInv
    · rw [hcf.1, hrf.1, hst.1, hbaseInv.1]
    · rw [hcf.2.1, hrf.2.1, hst.2.1, hbaseInv.2.1]
    · rw [hcf.2.2.1, hrf.2.2.1, hst.2.2.1, hbaseInv.2.2.1]
    · rw [hcf.2.2.2.1, hrf.2.2.2.1, hst.2.2.2.1, hbaseInv.2.2.2.1]
    · rw [hcf.2.2.2.2, hrf.2.2.2.2, hst.2.2.2.2, hbaseInv.2.2.2.2.1]
    · rw [hcu, hs3u, hs2u,
        updUser_map_userId uid (fun v => { v with replyOption := some gv, hasReplied := true })
          (fun v => rfl)]
      exact hbaseInv.2.2.2.2.2.1
    · rw [hcu, hs3u, hs2u]
      exact offNoVote_updUser_pres uid _ (fun v => ⟨rfl, rfl⟩) hbaseInv.2.2.2.2.2.2.1
    · intro vo
      rw [hcu, hs3u, hs2u, countP_updUser_invariant (fun w => decide (w.nextGameVote = some vo))
        uid (fun v => { v with replyOption := some gv, hasReplied := true }) (fun v => rfl)]
      exact hbaseInv.2.2.2.2.2.2.2 vo
  · rw [handleGuess_not_processed s cid gameId gv ca hp]
    exact hInv

/-! ### Claim C5: invariant preservation, vote handler -/

lemma invC5_voteResolveStep (s : RoomState) (hInv : InvC5 s) :
    InvC5 (voteResolveStep s) := by
  refine ⟨?_, ?_, ?_, ?_, ?_, ?_⟩
  · unfold usersNodup
    rw [voteResolveStep_users, map_userId_of_keyPreserving
      (fun v => { v with nextGameVote := none, hasReplied := false, replyOption := none })
      (fun v => rfl)]
    exact hInv.unodup
  · rw [voteResolveStep_users]
    intro v hv _
    obtain ⟨w, _, rfl⟩ := List.mem_map.mp hv
    rfl
  · rw [(voteResolveStep_frame s).1]
    exact hInv.cNorm
  · rw [(voteResolveStep_frame s).1, (voteResolveStep_frame s).2]
    exact hInv.routeOk
  · rw [(voteResolveStep_frame s).1]
    exact hInv.cNodup
  · intro vo hnone
    rw [voteResolveStep_selectedNextGame] at hnone
    cases hnone

lemma invC5_handleNextGameVote (s : RoomState) (cid optionStr : String)
    (gameId : Option String) (hInv : InvC5 s) :
    InvC5 (handleNextGameVote s cid optionStr gameId).1 := by
  unfold handleNextGameVote
  cases hlk : listLookup s.connectionToUserId cid with
  | none => exact hInv
  | some uid =>
    simp only []
    by_cases h1 : uid = ""
    · rw [if_pos h1]
      exact hInv
    · rw [if_neg h1]
      cases hfu : findUser s uid with
      | none => exact hInv
      | some u =>
        simp only []
        by_cases h2 : u.isOnline = false
        · rw [if_pos h2]
          exact hInv
        · rw [if_neg h2]
          cases hvo : parseVoteOption optionStr with
          | none => exact hInv
          | some vo =>
            simp only []
            have hon : u.isOnline = true := by
              revert h2
              cases u.isOnline <;> simp
            have hrecInv : InvC5 (voteRecordStep s uid u vo gameId) := by
              have hfr := voteRecordStep_frame s uid u vo gameId
              refine ⟨?_, ?_, ?_, ?_, ?_, ?_⟩
              · unfold usersNodup
                rw [voteRecordStep_users, updUser_map_userId uid
                  (fun v => { v with nextGameVote := some vo }) (fun v => rfl)]
                exact hInv.unodup
              · rw [voteRecordStep_users]
                intro w hw hoff
                obtain ⟨w2, hw2, rfl⟩ := List.mem_map.mp hw
                by_cases hwu : w2.userId = uid
                · rw [if_pos hwu] at hoff ⊢
                  have : w2 = u := find?_userId_unique hInv.unodup hfu hw2 hwu
                  subst this
                  exact absurd (show w2.isOnline = false from hoff) (by rw [hon]; simp)
                · rw [if_neg hwu] at hoff ⊢
                  exact hInv.offNoVote w2 hw2 hoff
              · rw [hfr.1]
                exact hInv.cNorm
              · rw [hfr.1, hfr.2]
                exact hInv.routeOk
              · rw [hfr.1]
                exact hInv.cNodup
              · intro X hnone
                rw [voteRecordStep_selectedNextGame] at hnone
                rw [voteRecordStep_readOr0]
                have hbound := hInv.tallyBound X hnone
                have humem : u ∈ s.users := mem_of_find?_eq_some hfu
                have hcount := countP_updUser (fun w => decide (w.nextGameVote = some X)) uid
                  (fun v => { v with nextGameVote := some vo }) (fun v => rfl)
                  hInv.unodup hfu
                unfold voteHolders at *
                rw [voteRecordStep_users]
                by_cases hvX : u.nextGameVote = some X <;> by_cases hXvo : X = vo
                · rw [if_pos hvX, if_pos hXvo]
                  rw [if_pos (by simp [hvX]), if_pos (by simp [hXvo.symm])] at hcount
                  have hpos : 1 ≤ s.users.countP (fun w => decide (w.nextGameVote = some X)) :=
                    countP_pos_of_mem _ humem (by simp [hvX])
                  omega
                · rw [if_pos hvX, if_neg hXvo]
                  rw [if_pos (by simp [hvX]),
                    if_neg (by simp; exact fun h => hXvo h.symm)] at hcount
                  have hpos : 1 ≤ s.users.countP (fun w => decide (w.nextGameVote = some X)) :=
                    countP_pos_of_mem _ humem (by simp [hvX])
                  omega
                · rw [if_neg hvX, if_pos hXvo]
                  rw [if_neg (by simp [hvX]), if_pos (by simp [hXvo.symm])] at hcount
                  omega
                · rw [if_neg hvX, if_neg hXvo]
                  rw [if_neg (by simp [hvX]),
                    if_neg (by simp; exact fun h => hXvo h.symm)] at hcount
                  omega
            split
            · exact invC5_voteResolveStep _ hrecInv
            · exact hrecInv

/-! ### Claim C5: invariant preservation, close -/

lemma handleClose_spec (s : RoomState) (cid : String) :
    (handleClose s cid).selectedNextGame = s.selectedNextGame ∧
    (handleClose s cid).clients = s.clients.filter (fun c => decide (c.connectionId ≠ cid)) ∧
    (handleClose s cid).connectionToUserId = listRemove s.connectionToUserId cid ∧
    ((∃ uid u, listLookup s.connectionToUserId cid = some uid ∧
        findUser s uid = some u ∧ u.isOnline = true ∧
        (handleClose s cid).users = updUser uid offlineUser s.users ∧
        (∀ X, (getVotes (handleClose s cid) X).readOr0 =
          (getVotes s X).readOr0 - (if u.nextGameVote = some X then 1 else 0))) ∨
      ((handleClose s cid).users = s.users ∧
        (∀ X, getVotes (handleClose s cid) X = getVotes s X)) ∨
      (∃ uid u, listLookup s.connectionToUserId cid = some uid ∧
        findUser s uid = some u ∧ u.isOnline = false ∧
        (handleClose s cid).users = updUser uid offlineUser s.users ∧
        (∀ X, getVotes (handleClose s cid) X = getVotes s X))) := by
  unfold handleClose
  cases hlk : listLookup s.connectionToUserId cid with
  | none => exact ⟨rfl, rfl, rfl, Or.inr (Or.inl ⟨rfl, fun X => rfl⟩)⟩
  | some uid =>
    simp only []
    by_cases h1 : uid = ""
    · rw [if_pos h1]
      exact ⟨rfl, rfl, rfl, Or.inr (Or.inl ⟨rfl, fun X => rfl⟩)⟩
    · rw [if_neg h1]
      cases hfu : findUser s uid with
      | none => exact ⟨rfl, rfl, rfl, Or.inr (Or.inl ⟨rfl, fun X => rfl⟩)⟩
      | some u =>
        simp only []
        by_cases h2 : u.isOnline
        · rw [if_pos h2]
          cases hv : u.nextGameVote with
          | none =>
            refine ⟨rfl, rfl, rfl, Or.inl ⟨uid, u, rfl, hfu, h2, rfl, ?_⟩⟩
            intro X
            rw [hv]
            simp only [reduceCtorEq, if_false, Nat.sub_zero]
            cases X <;> rfl
          | some Y =>
            refine ⟨by simp, by simp, by simp, Or.inl ⟨uid, u, rfl, hfu, h2, by simp, ?_⟩⟩
            intro X
            rw [hv]
            by_cases hYX : Y = X
            · subst hYX
              rw [if_pos rfl]
              cases Y <;> simp [getVotes, setVotes, readOr0_retract]
            · rw [if_neg (by simp [hYX])]
              cases Y <;> cases X <;> simp [getVotes, setVotes] <;> exact absurd rfl hYX
        · have h2b : u.isOnline = false := by
            revert h2
            cases u.isOnline <;> simp
          rw [h2b, if_neg Bool.false_ne_true]
          exact ⟨rfl, rfl, rfl, Or.inr (Or.inr ⟨uid, u, rfl, hfu, h2b, rfl, fun X => rfl⟩)⟩

lemma invC5_handleClose (s : RoomState) (cid : String) (hInv : InvC5 s) :
    InvC5 (handleClose s cid) := by
  obtain ⟨hsel, hcl, hroute, hcases⟩ := handleClose_spec s cid
  have hclientsSub : ∀ c ∈ (handleClose s cid).clients, c ∈ s.clients := by
    rw [hcl]
    intro c hc
    exact List.mem_of_mem_filter hc
  have hclientsNe : ∀ c ∈ (handleClose s cid).clients, c.connectionId ≠ cid := by
    rw [hcl]
    intro c hc
    have := (List.mem_filter.mp hc).2
    simpa using this
  refine ⟨?_, ?_, ?_, ?_, ?_, ?_⟩
  · unfold usersNodup
    rcases hcases with ⟨uid, u, _, _, _, hu, _⟩ | ⟨hu, _⟩ | ⟨uid, u, _, _, _, hu, _⟩ <;>
      rw [hu] <;>
      first
      | (rw [updUser_map_userId uid offlineUser (fun v => rfl)]; exact hInv.unodup)
      | exact hInv.unodup
  · rcases hcases with ⟨uid, u, _, _, _, hu, _⟩ | ⟨hu, _⟩ | ⟨uid, u, _, _, _, hu, _⟩ <;>
      rw [hu]
    · intro v hv hoff
      obtain ⟨w, hw, rfl⟩ := List.mem_map.mp hv
      by_cases hwu : w.userId = uid
      · rw [if_pos hwu]
        rfl
      · rw [if_neg hwu] at hoff ⊢
        exact hInv.offNoVote w hw hoff
    · exact hInv.offNoVote
    · intro v hv hoff
      obtain ⟨w, hw, rfl⟩ := List.mem_map.mp hv
      by_cases hwu : w.userId = uid
      · rw [if_pos hwu]
        rfl
      · rw [if_neg hwu] at hoff ⊢
        exact hInv.offNoVote w hw hoff
  · intro c hc
    exact hInv.cNorm c (hclientsSub c hc)
  · intro c hc
    rw [hroute, listLookup_listRemove_ne _ (hclientsNe c hc)]
    exact hInv.routeOk c (hclientsSub c hc)
  · rw [hcl]
    exact hInv.cNodup.sublist (List.Sublist.map _ (List.filter_sublist _))
  · intro X hnone
    rw [hsel] at hnone
    unfold voteHolders
    rcases hcases with ⟨uid, u, _, hfu, hon, hu, hvotes⟩ | ⟨hu, hvotes⟩ |
        ⟨uid, u, _, hfu, hoff2, hu, hvotes⟩
    · rw [hu, hvotes X]
      have humem : u ∈ s.users := mem_of_find?_eq_some hfu
      have hcount := countP_updUser (fun w => decide (w.nextGameVote = some X)) uid
        offlineUser (fun v => rfl) hInv.unodup hfu
      have hbound := hInv.tallyBound X hnone
      unfold voteHolders at hbound
      by_cases hvX : u.nextGameVote = some X
      · simp only [hvX, offlineUser, decide_eq_true_eq, reduceCtorEq, if_false, if_true] at hcount
        have hpos : 1 ≤ s.users.countP (fun w => decide (w.nextGameVote = some X)) :=
          countP_pos_of_mem _ humem (by simp [hvX])
        rw [if_pos hvX]
        omega
      · simp only [offlineUser, decide_eq_true_eq, reduceCtorEq, hvX, if_false] at hcount
        rw [if_neg hvX]
        omega
    · rw [hu, hvotes X]
      exact hInv.tallyBound X hnone
    · rw [hu, hvotes X]
      have hvnone : u.nextGameVote = none :=
        hInv.offNoVote u (mem_of_find?_eq_some hfu) hoff2
      have hcount := countP_updUser (fun w => decide (w.nextGameVote = some X)) uid
        offlineUser (fun v => rfl) hInv.unodup hfu
      simp only [hvnone, offlineUser, decide_eq_true_eq, reduceCtorEq, if_false] at hcount
      have hbound := hInv.tallyBound X hnone
      unfold voteHolders at hbound
      omega

/-! ### Claim C5: invariant preservation, connect (with evictions) -/

lemma listLookup_listRemove_self (l : List (String × String)) (k : String) :
    listLookup (listRemove l k) k = none := by
  induction l with
  | nil => rfl
  | cons a l ih =>
    unfold listRemove at *
    rw [List.filter_cons]
    by_cases ha : a.1 = k
    · rw [if_neg (by simp [ha])]
      exact ih
    · rw [if_pos (by simp [ha])]
      unfold listLookup at *
      rw [List.find?_cons_of_neg (p := fun (q : String × String) => decide (q.1 = k)) _
        (by simp [ha])]
      exact ih

/-- Relation between a pre-eviction state `s` and a state `t` obtained from it
by evicting connections that all route to the user id `uid`: the user key
sequence, the per-option vote-field counts and `selectedNextGame` are
unchanged, tallies have only been retracted, users other than `uid` are
untouched, the clients are a subset with intact routing, and every routing
entry is either original or deleted. -/
structure EvictInv (s : RoomState) (uid : String) (t : RoomState) : Prop where
  umap : t.users.map (fun u => u.userId) = s.users.map (fun u => u.userId)
  vcount : ∀ X, t.users.countP (fun w => decide (w.nextGameVote = some X)) =
    s.users.countP (fun w => decide (w.nextGameVote = some X))
  vle : ∀ X, (getVotes t X).readOr0 ≤ (getVotes s X).readOr0
  sel : t.selectedNextGame = s.selectedNextGame
  others : ∀ v ∈ t.users, v.userId ≠ uid → v ∈ s.users
  csub : t.clients.Sublist s.clients
  tRoute : ∀ c ∈ t.clients,
    listLookup t.connectionToUserId c.connectionId = some (persistentOf c)
  lkOr : ∀ k, listLookup t.connectionToUserId k = listLookup s.connectionToUserId k ∨
    listLookup t.connectionToUserId k = none

lemma evictInv_refl (s : RoomState) (uid : String)
    (hroute : ∀ c ∈ s.clients,
      listLookup s.connectionToUserId c.connectionId = some (persistentOf c)) :
    EvictInv s uid s :=
  ⟨rfl, fun _ => rfl, fun _ => le_refl _, rfl, fun v hv _ => hv,
    List.Sublist.refl _, hroute, fun _ => Or.inl rfl⟩

lemma evictOne_spec (t : RoomState) (c : Conn) :
    ((evictOne t c).users = t.users ∨
      ∃ oldUid, listLookup t.connectionToUserId c.connectionId = some oldUid ∧
        (evictOne t c).users = updUser oldUid evictedUser t.users) ∧
    (∀ X, (getVotes (evictOne t c) X).readOr0 ≤ (getVotes t X).readOr0) ∧
    (evictOne t c).selectedNextGame = t.selectedNextGame ∧
    (evictOne t c).clients =
      t.clients.filter (fun c2 => decide (c2.connectionId ≠ c.connectionId)) ∧
    (evictOne t c).connectionToUserId = listRemove t.connectionToUserId c.connectionId := by
  unfold evictOne
  simp only []
  cases hlk : listLookup t.connectionToUserId c.connectionId with
  | none => exact ⟨Or.inl rfl, fun X => le_refl _, rfl, rfl, rfl⟩
  | some oldUid =>
    simp only []
    by_cases h1 : oldUid = ""
    · rw [if_pos h1]
      exact ⟨Or.inl rfl, fun X => le_refl _, rfl, rfl, rfl⟩
    · rw [if_neg h1]
      cases hfu : findUser t oldUid with
      | none => exact ⟨Or.inl rfl, fun X => le_refl _, rfl, rfl, rfl⟩
      | some u =>
        simp only []
        by_cases h2 : u.replyOption ≠ none
        · rw [if_pos h2]
          cases hv : u.nextGameVote with
          | none => exact ⟨Or.inr ⟨oldUid, rfl, rfl⟩, fun X => le_refl _, rfl, rfl, rfl⟩
          | some vo =>
            refine ⟨Or.inr ⟨oldUid, rfl, by simp⟩, ?_, by simp, by simp, by simp⟩
            intro X
            cases X <;> cases vo <;>
              simp [getVotes, setVotes, readOr0_retract]
        · rw [if_neg h2]
          cases hv : u.nextGameVote with
          | none => exact ⟨Or.inr ⟨oldUid, rfl, rfl⟩, fun X => le_refl _, rfl, rfl, rfl⟩
          | some vo =>
            refine ⟨Or.inr ⟨oldUid, rfl, by simp⟩, ?_, by simp, by simp, by simp⟩
            intro X
            cases X <;> cases vo <;>
              simp [getVotes, setVotes, readOr0_retract]

lemma evictInv_evictOne {s t : RoomState} {uid : String} (c : Conn)
    (hI : EvictInv s uid t)
    (hsk : listLookup s.connectionToUserId c.connectionId = some uid) :
    EvictInv s uid (evictOne t c) := by
  obtain ⟨husers, hvle, hsel, hcl, hroute⟩ := evictOne_spec t c
  have holdUid : ∀ {oldUid : String},
      listLookup t.connectionToUserId c.connectionId = some oldUid → oldUid = uid := by
    intro oldUid h
    rcases hI.lkOr c.connectionId with h2 | h2
    · rw [h, hsk] at h2
      exact Option.some.inj h2
    · rw [h] at h2
      cases h2
  refine ⟨?_, ?_, ?_, ?_, ?_, ?_, ?_, ?_⟩
  · rcases husers with hul | ⟨oldUid, _, hu⟩
    · rw [hul]
      exact hI.umap
    · rw [hu, updUser_map_userId oldUid evictedUser (fun v => rfl)]
      exact hI.umap
  · intro X
    rcases husers with hul | ⟨oldUid, _, hu⟩
    · rw [hul]
      exact hI.vcount X
    · rw [hu, countP_updUser_invariant (fun w => decide (w.nextGameVote = some X)) oldUid
        evictedUser (fun v => rfl)]
      exact hI.vcount X
  · exact fun X => le_trans (hvle X) (hI.vle X)
  · exact hsel.trans hI.sel
  · intro v hv hvne
    rcases husers with hul | ⟨oldUid, hlkt, hu⟩
    · rw [hul] at hv
      exact hI.others v hv hvne
    · rw [hu] at hv
      have hou : oldUid = uid := holdUid hlkt
      subst hou
      exact hI.others v (mem_updUser_of_ne hv hvne (fun u => rfl)) hvne
  · rw [hcl]
    exact (List.filter_sublist _).trans hI.csub
  · intro c2 hc2
    rw [hcl] at hc2
    have hc2m := List.mem_filter.mp hc2
    have hne2 : c2.connectionId ≠ c.connectionId := by simpa using hc2m.2
    rw [hroute, listLookup_listRemove_ne _ hne2]
    exact hI.tRoute c2 hc2m.1
  · intro k
    rw [hroute]
    by_cases hk : k = c.connectionId
    · subst hk
      exact Or.inr (listLookup_listRemove_self _ _)
    · rw [listLookup_listRemove_ne _ hk]
      exact hI.lkOr k

lemma evictInv_foldl {s : RoomState} {uid : String} (L : List Conn) :
    ∀ {t : RoomState}, EvictInv s uid t →
      (∀ c ∈ L, listLookup s.connectionToUserId c.connectionId = some uid) →
      EvictInv s uid (L.foldl evictOne t) := by
  induction L with
  | nil =>
    intro t hI _
    exact hI
  | cons c L ih =>
    intro t hI hL
    rw [List.foldl_cons]
    exact ih (evictInv_evictOne c hI (hL c (List.mem_cons_self c L)))
      (fun c2 hc2 => hL c2 (List.mem_cons_of_mem c hc2))

/-- Tail of the connection handler (lines 246-320), after duplicate eviction:
add the client, then reattach or create the user and record the routing
entry.  `handleConnect` is its composition with `evictDuplicates`. -/
def connectAssemble (t : RoomState) (uopt : Option String) (connId color : String) :
    RoomState :=
  let s2 : RoomState := { t with clients := t.clients ++ [⟨connId, uopt⟩] }
  let pUid := uopt.getD ("user_" ++ connId)
  let s3 : RoomState :=
    match findUser s2 pUid with
    | some _ =>
      { s2 with
        users := updUser pUid (reattachUser connId) s2.users,
        currentGameStats := s2.currentGameStats.filter (fun st => decide (st.userId ≠ pUid)) }
    | none =>
      { s2 with users := s2.users ++ [newUser connId pUid color] }
  { s3 with connectionToUserId := listUpsert s3.connectionToUserId connId pUid }

lemma handleConnect_eq (s : RoomState) (u : Option String) (cid color : String) :
    handleConnect s u cid color =
      connectAssemble (evictDuplicates s (normalizeUserId u)) (normalizeUserId u) cid color :=
  rfl

lemma invC5_connectAssemble (s t : RoomState) (uopt : Option String)
    (connId color pUid : String) (hInv : InvC5 s) (hEv : EvictInv s pUid t)
    (hpu : uopt.getD ("user_" ++ connId) = pUid)
    (huopt : uopt ≠ some "")
    (hfresh2 : ∀ c ∈ s.clients, c.connectionId ≠ connId) :
    InvC5 (connectAssemble t uopt connId color) := by
  have htfresh : ∀ c2 ∈ t.clients, c2.connectionId ≠ connId :=
    fun c2 hc2 => hfresh2 c2 (hEv.csub.subset hc2)
  have hpers : persistentOf ⟨connId, uopt⟩ = pUid := by
    rw [← hpu]
    cases uopt <;> rfl
  have hcNorm : ∀ c2 ∈ t.clients ++ [(⟨connId, uopt⟩ : Conn)], c2.userId ≠ some "" := by
    intro c2 hc2
    rcases List.mem_append.mp hc2 with h | h
    · exact hInv.cNorm c2 (hEv.csub.subset h)
    · rw [List.mem_singleton] at h
      subst h
      exact huopt
  have hcNodup :
      ((t.clients ++ [(⟨connId, uopt⟩ : Conn)]).map (fun c2 => c2.connectionId)).Nodup := by
    rw [List.map_append]
    refine List.Nodup.append (hInv.cNodup.sublist (hEv.csub.map _)) (List.nodup_singleton _) ?_
    intro a ha hb
    rw [List.map_singleton, List.mem_singleton] at hb
    subst hb
    obtain ⟨c2, hc2, hceq⟩ := List.mem_map.mp ha
    exact htfresh c2 hc2 hceq
  have hrouteOk : ∀ c2 ∈ t.clients ++ [(⟨connId, uopt⟩ : Conn)],
      listLookup (listUpsert t.connectionToUserId connId pUid) c2.connectionId =
        some (persistentOf c2) := by
    intro c2 hc2
    rcases List.mem_append.mp hc2 with h | h
    · rw [listLookup_listUpsert_ne _ _ _ (htfresh c2 h)]
      exact hEv.tRoute c2 h
    · rw [List.mem_singleton] at h
      subst h
      rw [listLookup_listUpsert_self, hpers]
  unfold connectAssemble
  simp only []
  rw [hpu]
  split
  next u2 heq =>
    refine ⟨?_, ?_, hcNorm, hrouteOk, hcNodup, ?_⟩
    · show ((updUser pUid (reattachUser connId) t.users).map (fun u => u.userId)).Nodup
      rw [updUser_map_userId pUid (reattachUser connId) (fun v => rfl), hEv.umap]
      exact hInv.unodup
    · show ∀ u ∈ updUser pUid (reattachUser connId) t.users,
        u.isOnline = false → u.nextGameVote = none
      intro v hv hoff
      obtain ⟨w, hw, rfl⟩ := List.mem_map.mp hv
      by_cases hwu : w.userId = pUid
      · rw [if_pos hwu] at hoff
        exact absurd hoff (by simp [reattachUser])
      · rw [if_neg hwu] at hoff ⊢
        exact hInv.offNoVote w (hEv.others w hw hwu) hoff
    · intro X hnone
      have hsel2 : s.selectedNextGame = none := by
        rw [← hEv.sel]
        exact hnone
      have hbound := hInv.tallyBound X hsel2
      unfold voteHolders at *
      show (getVotes t X).readOr0 ≤
        (updUser pUid (reattachUser connId) t.users).countP
          (fun u => decide (u.nextGameVote = some X))
      rw [countP_updUser_invariant (fun u => decide (u.nextGameVote = some X)) pUid
        (reattachUser connId) (fun v => rfl), hEv.vcount X]
      exact le_trans (hEv.vle X) hbound
  next heq =>
    have hnotmem : ∀ u ∈ t.users, ¬ (u.userId = pUid) := by
      intro u hu hup
      have := List.find?_eq_none.mp heq u hu
      simp [hup] at this
    refine ⟨?_, ?_, hcNorm, hrouteOk, hcNodup, ?_⟩
    · show ((t.users ++ [newUser connId pUid color]).map (fun u => u.userId)).Nodup
      rw [List.map_append, List.map_singleton]
      refine List.Nodup.append (hEv.umap ▸ hInv.unodup) (List.nodup_singleton _) ?_
      intro a ha hb
      rw [List.mem_singleton] at hb
      subst hb
      obtain ⟨u, hu, hueq⟩ := List.mem_map.mp ha
      exact hnotmem u hu hueq
    · show ∀ u ∈ t.users ++ [newUser connId pUid color],
        u.isOnline = false → u.nextGameVote = none
      intro v hv hoff
      rcases List.mem_append.mp hv with h | h
      · exact hInv.offNoVote v (hEv.others v h (fun hc => hnotmem v h hc)) hoff
      · rw [List.mem_singleton] at h
        subst h
        exact absurd hoff (by simp [newUser])
    · intro X hnone
      have hsel2 : s.selectedNextGame = none := by
        rw [← hEv.sel]
        exact hnone
      have hbound := hInv.tallyBound X hsel2
      unfold voteHolders at *
      show (getVotes t X).readOr0 ≤
        (t.users ++ [newUser connId pUid color]).countP
          (fun u => decide (u.nextGameVote = some X))
      rw [List.countP_append, hEv.vcount X]
      have h0 : ([newUser connId pUid color].countP
          (fun u => decide (u.nextGameVote = some X))) = 0 := by
        simp [newUser]
      rw [h0]
      exact le_trans (hEv.vle X) hbound

lemma invC5_handleConnect (s : RoomState) (u : Option String) (connId color : String)
    (hInv : InvC5 s)
    (hfresh2 : ∀ c ∈ s.clients, c.connectionId ≠ connId) :
    InvC5 (handleConnect s u connId color) := by
  rw [handleConnect_eq]
  refine invC5_connectAssemble s _ (normalizeUserId u) connId color
    ((normalizeUserId u).getD ("user_" ++ connId)) hInv ?_ rfl
    (normalizeUserId_ne_empty u) hfresh2
  cases hc : normalizeUserId u with
  | none =>
    exact evictInv_refl s _ hInv.routeOk
  | some uid =>
    show EvictInv s ((some uid).getD ("user_" ++ connId))
      ((s.clients.filter (fun c => decide (c.userId = some uid))).foldl evictOne s)
    refine evictInv_foldl _ (evictInv_refl s _ hInv.routeOk) ?_
    intro c hcm
    have hcm2 := List.mem_filter.mp hcm
    have hcu : c.userId = some uid := by simpa using hcm2.2
    have := hInv.routeOk c hcm2.1
    rw [this]
    unfold persistentOf
    rw [hcu]
    rfl

/-! ### Claim C5: the invariant holds on every reachable state -/

lemma invC5_initial : InvC5 initialRoomState := by
  refine ⟨?_, ?_, ?_, ?_, ?_, ?_⟩
  · simp [usersNodup, initialRoomState]
  · intro u hu
    simp [initialRoomState] at hu
  · intro c hc
    simp [initialRoomState] at hc
  · intro c hc
    simp [initialRoomState] at hc
  · simp [initialRoomState]
  · intro vo _
    cases vo <;> simp [getVotes, initialRoomState, voteHolders, Tally.readOr0]

lemma invC5_step (s : RoomState) (e : Event) (hInv : InvC5 s) (hv : ValidEvent s e) :
    InvC5 (step s e) := by
  cases e with
  | connect u cid color => exact invC5_handleConnect s u cid color hInv hv.2
  | close cid => exact invC5_handleClose s cid hInv
  | voteTimer => exact invC5_voteTimerFire s hInv
  | message cid m =>
    cases m with
    | malformed => exact hInv
    | guess gameId gv ca => exact invC5_handleGuess s cid gameId gv ca hInv
    | correctGuess => exact hInv
    | wrongGuess => exact hInv
    | nextGame => exact hInv
    | userReady f nick => exact invC5_handleUserReady s cid f nick hInv
    | resetLeaderboard => exact invC5_handleResetLeaderboard s hInv
    | nextGameVote opt gid => exact invC5_handleNextGameVote s cid opt gid hInv
    | other tag => exact hInv

lemma invC5_reachable {s : RoomState} (h : Reachable s) : InvC5 s := by
  induction h with
  | init => exact invC5_initial
  | step hr hv ih => exact invC5_step _ _ ih hv

/-! ### Claim C5: theorem, counterexample and witness -/

lemma holders_le_online (l : List User)
    (hoff : ∀ u ∈ l, u.isOnline = false → u.nextGameVote = none) :
    l.countP (fun u => decide (u.nextGameVote = some VoteOption.raw)) +
      l.countP (fun u => decide (u.nextGameVote = some VoteOption.smart)) ≤
      (l.filter (fun u => u.isOnline)).length := by
  induction l with
  | nil => simp
  | cons a l ih =>
    have ha := hoff a (List.mem_cons_self a l)
    have ih2 := ih (fun u hu => hoff u (List.mem_cons_of_mem a hu))
    rw [List.countP_cons, List.countP_cons, List.filter_cons]
    cases hon : a.isOnline with
    | false =>
      have hvn : a.nextGameVote = none := ha hon
      simp only [hvn, reduceCtorEq, decide_eq_true_eq, if_false, hon,
        Bool.false_eq_true, Nat.add_zero]
      exact ih2
    | true =>
      simp only [hon, if_true]
      rw [List.length_cons]
      cases hv : a.nextGameVote with
      | none => simp only [hv, reduceCtorEq, decide_eq_true_eq, if_false]; omega
      | some vo => cases vo <;> simp [hv] <;> omega

lemma tallySum_le_onlineCount {s : RoomState} (hr : Reachable s)
    (hnone : s.selectedNextGame = none) : tallySum s ≤ onlineCount s := by
  have hInv := invC5_reachable hr
  have h1 := hInv.tallyBound VoteOption.raw hnone
  have h2 := hInv.tallyBound VoteOption.smart hnone
  have h3 := holders_le_online s.users hInv.offNoVote
  unfold voteHolders at h1 h2
  unfold tallySum onlineCount onlineUsersOf
  have hraw : (getVotes s VoteOption.raw).readOr0 = s.votesRaw.readOr0 := rfl
  have hsmart : (getVotes s VoteOption.smart).readOr0 = s.votesSmart.readOr0 := rfl
  rw [hraw] at h1
  rw [hsmart] at h2
  omega

def cexTrace5 : List Event := [
  .connect (some "A") "c1" "#66C0F4",
  .message "c1" (.nextGameVote "raw" (some "G2")),
  .close "c1"]

/-- C5 (counterexample): a reachable room state in which the sum of the two
vote tallies exceeds the number of online participants.  A single online
participant votes, which immediately resolves the session; the resolution
step clears the vote fields but not the tallies, so the following disconnect
retracts nothing and leaves a tally of 1 with nobody online. -/
theorem C5_counterexample :
    Reachable (runEvents cexTrace5) ∧
    onlineCount (runEvents cexTrace5) < tallySum (runEvents cexTrace5) :=
  ⟨reachable_runEvents cexTrace5 (by decide), by decide⟩

/-- C5 (amended): an online participant changing their vote first decrements
the previous option's tally (floored at zero, by `Nat` subtraction) and then
increments the new option's tally, so the net contribution moves rather than
duplicates; and on every reachable state on which no resolved vote is
awaiting its deferred activation (`selectedNextGame = none`), the sum of the
two tallies is at most the number of online participants.  (Between a vote
resolution and the deferred reset the bound can fail, as the counterexample
shows, so the original unconditional claim is too strong.) -/
theorem C5_vote_change_bounded_tallies :
    (∀ (s : RoomState) (cid opt : String) (gid : Option String) (uid : String) (u : User)
        (vo Y : VoteOption),
      listLookup s.connectionToUserId cid = some uid → uid ≠ "" →
      findUser s uid = some u → u.isOnline = true → parseVoteOption opt = some vo →
      u.nextGameVote = some Y → Y ≠ vo →
      (getVotes (handleNextGameVote s cid opt gid).1 Y).readOr0 =
          (getVotes s Y).readOr0 - 1 ∧
        (getVotes (handleNextGameVote s cid opt gid).1 vo).readOr0 =
          (getVotes s vo).readOr0 + 1) ∧
    (∀ s : RoomState, Reachable s → s.selectedNextGame = none →
      tallySum s ≤ onlineCount s) := by
  constructor
  · intro s cid opt gid uid u vo Y hlk hne hfu hon hvo hY hYvo
    unfold handleNextGameVote
    rw [hlk]
    simp only []
    rw [if_neg hne, hfu]
    simp only []
    rw [hon, if_neg (by simp), hvo]
    simp only []
    have hres : ∀ (t : RoomState) (Z : VoteOption),
        getVotes (voteResolveStep t) Z = getVotes t Z := by
      intro t Z
      cases Z <;> rfl
    have hrec1 := voteRecordStep_readOr0 s uid u vo gid Y
    have hrec2 := voteRecordStep_readOr0 s uid u vo gid vo
    rw [hY] at hrec1 hrec2
    rw [if_pos rfl, if_neg hYvo] at hrec1
    rw [if_neg (show ¬ ((some Y : Option VoteOption) = some vo) from
      fun h => hYvo (Option.some.inj h)), if_pos rfl] at hrec2
    constructor
    · show (getVotes (if _ then voteResolveStep _ else _) Y).readOr0 = _
      split
      · rw [hres]
        omega
      · omega
    · show (getVotes (if _ then voteResolveStep _ else _) vo).readOr0 = _
      split
      · rw [hres]
        omega
      · omega
  · intro s hr hnone
    exact tallySum_le_onlineCount hr hnone

def c5wuser : User where
  id := some "c1"
  userId := "A"
  name := "User A"
  score := 0
  failedGuesses := 0
  totalGuesses := 0
  color := "#66C0F4"
  isOnline := true
  hasReplied := false
  replyOption := none
  nextGameVote := some .raw

def c5wstate : RoomState :=
  { initialRoomState with
    users := [c5wuser],
    connectionToUserId := [("c1", "A")],
    clients := [⟨"c1", some "A"⟩],
    votesRaw := .num 1 }

/-- C5 (witness): on a concrete room with one online participant holding a
`raw` vote and a `raw` tally of 1, a `smart` vote from that participant
drives the tallies to 0 and 1, and the fresh room satisfies the tally bound. -/
theorem C5_witness :
    (getVotes (handleNextGameVote c5wstate "c1" "smart" none).1 VoteOption.raw).readOr0 = 0 ∧
    (getVotes (handleNextGameVote c5wstate "c1" "smart" none).1 VoteOption.smart).readOr0 = 1 ∧
    tallySum initialRoomState ≤ onlineCount initialRoomState := by
  have h := C5_vote_change_bounded_tallies.1 c5wstate "c1" "smart" none "A" c5wuser
    VoteOption.smart VoteOption.raw (by decide) (by decide) (by decide) (by decide)
    (by decide) (by decide) (by decide)
  refine ⟨?_, ?_, C5_vote_change_bounded_tallies.2 initialRoomState Reachable.init rfl⟩
  · rw [h.1]
    decide
  · rw [h.2]
    decide

/-! ### Claim C8: room deletion grace period -/

lemma not_mem_filter_ne_self (l : List String) (rid : String) :
    rid ∉ l.filter (fun r => decide (r ≠ rid)) := by
  intro h
  have := (List.mem_filter.mp h).2
  simp at this

lemma roomsFind_map_upsert (rooms : List (String × RoomState)) (rid : String)
    (st : RoomState) (hany : rooms.any (fun p => decide (p.1 = rid)) = true) :
    (((rooms.map (fun p => if p.1 = rid then (rid, st) else p)).find?
      (fun p => decide (p.1 = rid))).map (fun p => p.2)) = some st := by
  induction rooms with
  | nil => cases hany
  | cons a l ih =>
    rw [List.map_cons]
    by_cases ha : a.1 = rid
    · rw [if_pos ha, List.find?_cons_of_pos _ (by simp)]
      rfl
    · rw [if_neg ha, List.find?_cons_of_neg _ (by simp [ha])]
      apply ih
      rw [List.any_cons] at hany
      have hfa : decide (a.1 = rid) = false := by simp [ha]
      rw [hfa, Bool.false_or] at hany
      exact hany

lemma roomsFind_append_single (rooms : List (String × RoomState)) (rid : String)
    (st : RoomState) (hnone : rooms.any (fun p => decide (p.1 = rid)) = false) :
    (((rooms ++ [(rid, st)]).find? (fun p => decide (p.1 = rid))).map (fun p => p.2)) =
      some st := by
  induction rooms with
  | nil =>
    rw [List.nil_append, List.find?_cons_of_pos _ (by simp)]
    rfl
  | cons a l ih =>
    rw [List.any_cons] at hnone
    have ha : decide (a.1 = rid) = false := by
      cases hb : (decide (a.1 = rid)) with
      | true => rw [hb, Bool.true_or] at hnone; cases hnone
      | false => rfl
    rw [List.cons_append, List.find?_cons_of_neg _ (by simp [ha])]
    apply ih
    rw [ha, Bool.false_or] at hnone
    exact hnone

lemma roomsFind_upsert_self (rooms : List (String × RoomState)) (rid : String)
    (st : RoomState) :
    (((upsertRoom rooms rid st).find? (fun p => decide (p.1 = rid))).map (fun p => p.2)) =
      some st := by
  unfold upsertRoom
  by_cases hany : rooms.any (fun p => decide (p.1 = rid)) = true
  · rw [if_pos hany]
    exact roomsFind_map_upsert rooms rid st hany
  · rw [if_neg hany]
    apply roomsFind_append_single
    revert hany
    cases rooms.any (fun p => decide (p.1 = rid)) <;> simp

lemma roomsFind_remove_self (rooms : List (String × RoomState)) (rid : String) :
    ((removeRoom rooms rid).find? (fun p => decide (p.1 = rid))) = none := by
  induction rooms with
  | nil => rfl
  | cons a l ih =>
    unfold removeRoom at *
    rw [List.filter_cons]
    by_cases ha : a.1 = rid
    · rw [if_neg (by simp [ha])]
      exact ih
    · rw [if_pos (by simp [ha])]
      rw [List.find?_cons_of_neg _ (by simp [ha])]
      exact ih

/-- C8: when a room loses its last live connection it is kept and a deletion
timer with the fixed 30-second delay is scheduled as long as it still has at
least one `User` record (even offline ones), while a room with no `User`
records is deleted immediately; a new connection for the room cancels any
pending deletion timer; and when the timer fires, the room is deleted exactly
when it still has zero clients and no online user — otherwise it is kept —
and the pending-timer entry is dropped in every case. -/
theorem C8_room_deletion_grace_period :
    roomDeletionDelayMs = 30000 ∧
    (∀ (reg : Registry) (rid cid : String) (st : RoomState),
      lookupRoom reg rid = some st →
      (handleClose st cid).clients.length = 0 →
      (handleClose st cid).users.length ≠ 0 →
      lookupRoom (registryClose reg rid cid) rid = some (handleClose st cid) ∧
        rid ∈ (registryClose reg rid cid).roomDeletionTimeouts) ∧
    (∀ (reg : Registry) (rid cid : String) (st : RoomState),
      lookupRoom reg rid = some st →
      (handleClose st cid).clients.length = 0 →
      (handleClose st cid).users.length = 0 →
      lookupRoom (registryClose reg rid cid) rid = none) ∧
    (∀ (reg : Registry) (rid : String) (u : Option String) (cid color : String),
      rid ∉ (registryConnect reg rid u cid color).roomDeletionTimeouts) ∧
    (∀ (reg : Registry) (rid : String) (st : RoomState),
      lookupRoom reg rid = some st →
      ((st.clients.length = 0 ∧ ¬ st.users.any (fun u => u.isOnline) = true) →
        lookupRoom (roomDeletionTimerFire reg rid) rid = none) ∧
      ((st.clients.length ≠ 0 ∨ st.users.any (fun u => u.isOnline) = true) →
        lookupRoom (roomDeletionTimerFire reg rid) rid = some st) ∧
      rid ∉ (roomDeletionTimerFire reg rid).roomDeletionTimeouts) := by
  refine ⟨rfl, ?_, ?_, ?_, ?_⟩
  · intro reg rid cid st hlk hcl hus
    unfold registryClose
    rw [hlk]
    simp only []
    rw [if_pos hcl, if_pos hus]
    constructor
    · show (((upsertRoom reg.rooms rid (handleClose st cid)).find?
        (fun p => decide (p.1 = rid))).map (fun p => p.2)) = some (handleClose st cid)
      exact roomsFind_upsert_self reg.rooms rid (handleClose st cid)
    · show rid ∈ (cancelDeletion _ rid).roomDeletionTimeouts ++ [rid]
      exact List.mem_append.mpr (Or.inr (List.mem_singleton.mpr rfl))
  · intro reg rid cid st hlk hcl hus0
    unfold registryClose
    rw [hlk]
    simp only []
    rw [if_pos hcl, if_neg (fun h => h hus0)]
    show (((removeRoom (upsertRoom reg.rooms rid (handleClose st cid)) rid).find?
      (fun p => decide (p.1 = rid))).map (fun p => p.2)) = none
    rw [roomsFind_remove_self]
    rfl
  · intro reg rid u cid color
    unfold registryConnect getRoomStateReg
    simp only []
    cases hlk : lookupRoom reg rid with
    | some st =>
      simp only []
      exact not_mem_filter_ne_self reg.roomDeletionTimeouts rid
    | none =>
      simp only []
      exact not_mem_filter_ne_self reg.roomDeletionTimeouts rid
  · intro reg rid st hlk
    unfold roomDeletionTimerFire
    rw [hlk]
    simp only []
    refine ⟨?_, ?_, ?_⟩
    · intro h
      rw [if_pos h.1, if_neg h.2]
      show (((removeRoom reg.rooms rid).find?
        (fun p => decide (p.1 = rid))).map (fun p => p.2)) = none
      rw [roomsFind_remove_self]
      rfl
    · intro h
      rcases h with hne | hon
      · rw [if_neg hne]
        exact hlk
      · by_cases hcl : st.clients.length = 0
        · rw [if_pos hcl, if_pos hon]
          exact hlk
        · rw [if_neg hcl]
          exact hlk
    · by_cases hcl : st.clients.length = 0
      · by_cases hon : st.users.any (fun u => u.isOnline) = true
        · rw [if_pos hcl, if_pos hon]
          exact not_mem_filter_ne_self reg.roomDeletionTimeouts rid
        · rw [if_pos hcl, if_neg hon]
          exact not_mem_filter_ne_self reg.roomDeletionTimeouts rid
      · rw [if_neg hcl]
        exact not_mem_filter_ne_self reg.roomDeletionTimeouts rid

def st8 : RoomState :=
  { initialRoomState with
    users := [{ c5wuser with nextGameVote := none }],
    connectionToUserId := [("c1", "A")],
    clients := [⟨"c1", some "A"⟩] }

def reg8 : Registry := ⟨[("R", st8)], ["R"], []⟩

def st8b : RoomState :=
  { initialRoomState with
    connectionToUserId := [("c2", "user_c2")],
    clients := [⟨"c2", none⟩] }

def reg8b : Registry := ⟨[("Q", st8b)], ["Q"], []⟩

def reg8c : Registry := ⟨[("R", st8)], ["R"], ["R"]⟩

def st8d : RoomState :=
  { initialRoomState with
    users := [{ c5wuser with isOnline := false, id := none, nextGameVote := none }] }

def reg8d : Registry := ⟨[("T", st8d)], ["T"], ["T"]⟩

/-- C8 (witness): concrete registries exercising each clause — a close that
leaves an offline user schedules the timer and keeps the room, a close on a
room with no user records deletes it at once, a connect cancels a pending
timer, and a fired timer deletes an empty room with only an offline user. -/
theorem C8_witness :
    (lookupRoom (registryClose reg8 "R" "c1") "R" = some (handleClose st8 "c1") ∧
      "R" ∈ (registryClose reg8 "R" "c1").roomDeletionTimeouts) ∧
    lookupRoom (registryClose reg8b "Q" "c2") "Q" = none ∧
    "R" ∉ (registryConnect reg8c "R" (some "A") "c9" "#FFFFFF").roomDeletionTimeouts ∧
    lookupRoom (roomDeletionTimerFire reg8d "T") "T" = none := by
  refine ⟨?_, ?_, ?_, ?_⟩
  · exact C8_room_deletion_grace_period.2.1 reg8 "R" "c1" st8
      (by decide) (by decide) (by decide)
  · exact C8_room_deletion_grace_period.2.2.1 reg8b "Q" "c2" st8b
      (by decide) (by decide) (by decide)
  · exact C8_room_deletion_grace_period.2.2.2.1 reg8c "R" (some "A") "c9" "#FFFFFF"
  · exact (C8_room_deletion_grace_period.2.2.2.2 reg8d "T" st8d (by decide)).1
      ⟨by decide, by decide⟩

end JonasReviewGuesser
